import Mathlib

/-!
# FRTC8900 real-time-clock driver: register-level verification

A shallow embedding of `src/FRTC8900.cpp` / `src/FRTC8900.h`.

* Values of type `uint8_t` / `uint16_t` are natural numbers; every conversion
  to `uint8_t` is an explicit `% 256` (or `u8` when the converted value is an
  `int` that may be negative).
* Expressions whose operands are all non-negative after integer promotion are
  computed on `Nat`; the only place where a negative `int` appears is the
  complement `~m`, which is computed on `Int` (`andNot`).
* A left shift `1 << k` whose amount is not guaranteed to be defined returns
  `Option` (`shl1`): the driver functions that contain one are fallible.
* The bus collaborator (`TwoWire`) is not part of the repository; it is
  modelled as a simulated register file behind the `Wire` call surface that the
  driver uses.
-/

namespace FRTC8900

/-! ## Constants of `FRTC8900.h` -/

def FRTC8900_I2C_ADDRESS : Nat := 0x32

def FRTC8900_REG_SEC : Nat := 0x00
def FRTC8900_REG_MIN : Nat := 0x01
def FRTC8900_REG_HOUR : Nat := 0x02
def FRTC8900_REG_WEEK : Nat := 0x03
def FRTC8900_REG_DAY : Nat := 0x04
def FRTC8900_REG_MONTH : Nat := 0x05
def FRTC8900_REG_YEAR : Nat := 0x06
def FRTC8900_REG_MIN_ALARM : Nat := 0x08
def FRTC8900_REG_HOUR_ALARM : Nat := 0x09
def FRTC8900_REG_WEEK_ALARM : Nat := 0x0A
def FRTC8900_REG_EXTENSION : Nat := 0x0D
def FRTC8900_REG_FLAG : Nat := 0x0E
def FRTC8900_REG_CONTROL : Nat := 0x0F
def FRTC8900_REG_TEMP : Nat := 0x17

/-- Frequency options for the FOUT pin (`enum FOUT_Frequency`). -/
inductive FOUT_Frequency where
  | FOUT_32768_HZ
  | FOUT_1024_HZ
  | FOUT_1_HZ
  deriving DecidableEq

/-- The integer value of a `FOUT_Frequency` enumerator. -/
def FOUT_Frequency.val : FOUT_Frequency → Nat
  | .FOUT_32768_HZ => 0b00
  | .FOUT_1024_HZ => 0b01
  | .FOUT_1_HZ => 0b10

/-- Day interpretation of the alarm (`enum AlarmMode`). -/
inductive AlarmMode where
  | ALARM_DAY_OF_WEEK
  | ALARM_DAY_OF_MONTH
  deriving DecidableEq

/-- The integer value of an `AlarmMode` enumerator. -/
def AlarmMode.val : AlarmMode → Nat
  | .ALARM_DAY_OF_WEEK => 0
  | .ALARM_DAY_OF_MONTH => 1

/-- Rate options for the update interrupt (`enum UpdateRate`). -/
inductive UpdateRate where
  | UPDATE_SECONDLY
  | UPDATE_MINUTELY
  deriving DecidableEq

/-- The integer value of an `UpdateRate` enumerator. -/
def UpdateRate.val : UpdateRate → Nat
  | .UPDATE_SECONDLY => 0
  | .UPDATE_MINUTELY => 1

/-! ## Machine arithmetic -/

/-- Conversion of an `int` to `uint8_t`: reduction modulo 256. -/
def u8 (x : Int) : Nat := (x % 256).toNat

/-- The C++ expression `1 << k` on `int`. The shift is defined on every
conforming platform (where `int` has at least 16 bits) exactly when
`0 ≤ k ≤ 14`; outside that range the expression has no defined value. -/
def shl1 (k : Int) : Option Nat :=
  if 0 ≤ k ∧ k ≤ 14 then some (2 ^ k.toNat) else none

/-- The C++ compound assignment `x &= ~m` for a `uint8_t` variable `x` and a
non-negative `int` `m`: `x` is promoted to `int`, `~m` is the two's-complement
complement (negative), and the result is converted back to `uint8_t`. -/
def andNot (x m : Nat) : Nat := u8 (Int.land (x : Int) (Int.lnot (m : Int)))

/-- Body of `FRTC8900::bcdToDec`: `((val / 16) * 10) + (val % 16)`, returned as `uint8_t`. -/
def bcdToDec (val : Nat) : Nat := (((val / 16) * 10) + (val % 16)) % 256

/-- Body of `FRTC8900::decToBcd`: `((val / 10) * 16) + (val % 10)`, returned as `uint8_t`. -/
def decToBcd (val : Nat) : Nat := (((val / 10) * 16) + (val % 10)) % 256

/-! ## The bus collaborator -/

/-- One completed bus operation, as observed on the wire. -/
inductive BusEvent where
  | write (address : Nat) (bytes : List Nat) (sendStop : Bool)
  | request (address : Nat) (quantity : Nat)
  deriving DecidableEq

/-- Modelled from the spec: the bus collaborator (`TwoWire`, from the Arduino
core, absent from the repository) together with the simulated register file of
the chip behind it. `regs` is the register file of the device at address 0x32,
`ptr` its auto-incrementing register pointer, `txAddress`/`txBuffer` the write
transaction being assembled, `rxBuffer` the bytes fetched by the last
`requestFrom` and not yet consumed, `trace` the completed bus operations. -/
structure TwoWire where
  regs : Nat → Nat
  ptr : Nat
  txAddress : Nat
  txBuffer : List Nat
  rxBuffer : List Nat
  trace : List BusEvent

/-- Modelled from the spec: the device stores the data bytes of a write
transaction at consecutive registers, advancing the register pointer after
each byte. -/
def deviceWrite (regs : Nat → Nat) (ptr : Nat) : List Nat → (Nat → Nat) × Nat
  | [] => (regs, ptr)
  | b :: bs => deviceWrite (Function.update regs ptr b) ((ptr + 1) % 256) bs

/-- Modelled from the spec: the first byte of a write transaction selects the
register pointer, the remaining bytes are data. -/
def deviceReceive (regs : Nat → Nat) (ptr : Nat) : List Nat → (Nat → Nat) × Nat
  | [] => (regs, ptr)
  | a :: bs => deviceWrite regs a bs

/-- Modelled from the spec: the device returns `n` bytes from consecutive
registers starting at the register pointer, advancing it after each byte. -/
def deviceRead (regs : Nat → Nat) : Nat → Nat → List Nat × Nat
  | 0, ptr => ([], ptr)
  | n + 1, ptr =>
    let r := deviceRead regs n ((ptr + 1) % 256)
    (regs ptr % 256 :: r.1, r.2)

/-- Modelled from the spec: `TwoWire::beginTransmission(address)`. -/
def TwoWire.beginTransmission (w : TwoWire) (address : Nat) : TwoWire :=
  { w with txAddress := address, txBuffer := [] }

/-- Modelled from the spec: `TwoWire::write(byte)`; the argument is converted to `uint8_t`. -/
def TwoWire.write (w : TwoWire) (data : Nat) : TwoWire :=
  { w with txBuffer := w.txBuffer ++ [data % 256] }

/-- Modelled from the spec: `TwoWire::endTransmission(sendStop)`; the queued
bytes go out in one transaction and the device at 0x32 consumes them. -/
def TwoWire.endTransmission (w : TwoWire) (sendStop : Bool) : TwoWire :=
  let ev := BusEvent.write w.txAddress w.txBuffer sendStop
  if w.txAddress = FRTC8900_I2C_ADDRESS then
    let r := deviceReceive w.regs w.ptr w.txBuffer
    { w with regs := r.1, ptr := r.2, txBuffer := [], trace := w.trace ++ [ev] }
  else
    { w with txBuffer := [], trace := w.trace ++ [ev] }

/-- Modelled from the spec: `TwoWire::requestFrom(address, quantity)`. -/
def TwoWire.requestFrom (w : TwoWire) (address quantity : Nat) : TwoWire :=
  let ev := BusEvent.request address quantity
  if address = FRTC8900_I2C_ADDRESS then
    let r := deviceRead w.regs quantity w.ptr
    { w with rxBuffer := r.1, ptr := r.2, trace := w.trace ++ [ev] }
  else
    { w with rxBuffer := [], trace := w.trace ++ [ev] }

/-- Modelled from the spec: `TwoWire::read()`; the next fetched byte as an
`int`, or `-1` when none is left. -/
def TwoWire.read (w : TwoWire) : Int × TwoWire :=
  match w.rxBuffer with
  | [] => (-1, w)
  | b :: bs => ((b : Int), { w with rxBuffer := bs })

/-! ## The driver (`FRTC8900.cpp`) -/

/-- The method `FRTC8900::writeRegister`. -/
def writeRegister (w : TwoWire) (regAddr data : Nat) : TwoWire :=
  let w := w.beginTransmission FRTC8900_I2C_ADDRESS
  let w := w.write regAddr
  let w := w.write data
  w.endTransmission true

/-- The method `FRTC8900::readRegister`; the `int` returned by `read()` is
converted to the `uint8_t` return type. -/
def readRegister (w : TwoWire) (regAddr : Nat) : Nat × TwoWire :=
  let w := w.beginTransmission FRTC8900_I2C_ADDRESS
  let w := w.write regAddr
  let w := w.endTransmission false
  let w := w.requestFrom FRTC8900_I2C_ADDRESS 1
  let r := w.read
  (u8 r.1, r.2)

/-- The method `FRTC8900::updateRegisterBit`. -/
def updateRegisterBit (w : TwoWire) (regAddr bit : Nat) (value : Bool) : Option TwoWire :=
  let r := readRegister w regAddr
  match shl1 (bit : Int) with
  | none => none
  | some m =>
    let regVal := if value then (r.1 ||| m) % 256 else andNot r.1 m
    some (writeRegister r.2 regAddr regVal)

/-- The method `FRTC8900::isTimeValid`: the returned flag and the port afterwards. -/
def isTimeValid (w : TwoWire) : Bool × TwoWire :=
  let r := readRegister w FRTC8900_REG_FLAG
  (((r.1 >>> 1) &&& 1) == 0, r.2)

/-- The method `FRTC8900::clearVoltageLowFlag`. -/
def clearVoltageLowFlag (w : TwoWire) : TwoWire :=
  let r := readRegister w FRTC8900_REG_FLAG
  let flagReg := andNot r.1 (1 <<< 1)
  writeRegister r.2 FRTC8900_REG_FLAG flagReg

/-- The method `FRTC8900::setTime`. The weekday byte `1 << (dayOfWeek - 1)` is an
`int` passed to `write`, which converts it to `uint8_t`. -/
def setTime (w : TwoWire) (sec min hour dayOfWeek dayOfMonth month year : Nat) :
    Option TwoWire :=
  let w := w.beginTransmission FRTC8900_I2C_ADDRESS
  let w := w.write FRTC8900_REG_SEC
  let w := w.write (decToBcd sec)
  let w := w.write (decToBcd min)
  let w := w.write (decToBcd hour)
  match shl1 ((dayOfWeek : Int) - 1) with
  | none => none
  | some m =>
    let w := w.write m
    let w := w.write (decToBcd dayOfMonth)
    let w := w.write (decToBcd month)
    let w := w.write (decToBcd (year % 100))
    let w := w.endTransmission true
    some (clearVoltageLowFlag w)

/-- The seven output parameters of `FRTC8900::getTime`. -/
structure Time where
  sec : Nat
  min : Nat
  hour : Nat
  dayOfWeek : Nat
  dayOfMonth : Nat
  month : Nat
  year : Nat
  deriving DecidableEq

/-- The loop `for (int i = 0; i < 7; i++) if ((week_reg >> i) & 1) { dayOfWeek = i + 1; break; }`
of `getTime`: `n` iterations remain, `i` is the loop counter and `dayOfWeek` the
current value of the output variable. -/
def weekScan (week_reg : Nat) : Nat → Nat → Nat → Nat
  | 0, _, dayOfWeek => dayOfWeek
  | n + 1, i, dayOfWeek =>
    if (week_reg >>> i) &&& 1 ≠ 0 then (i + 1) % 256
    else weekScan week_reg n (i + 1) dayOfWeek

/-- The method `FRTC8900::getTime`. The argument `dayOfWeek` is the value the
caller's `dayOfWeek` variable holds before the call (the other six outputs are
assigned unconditionally). -/
def getTime (w : TwoWire) (dayOfWeek : Nat) : Time × TwoWire :=
  let w := w.beginTransmission FRTC8900_I2C_ADDRESS
  let w := w.write FRTC8900_REG_SEC
  let w := w.endTransmission false
  let w := w.requestFrom FRTC8900_I2C_ADDRESS 7
  let r := w.read
  let sec := bcdToDec (u8 r.1)
  let r := r.2.read
  let min := bcdToDec (u8 r.1)
  let r := r.2.read
  let hour := bcdToDec (u8 r.1)
  let r := r.2.read
  let week_reg := u8 r.1
  let r := r.2.read
  let dayOfMonth := bcdToDec (u8 r.1)
  let r := r.2.read
  let month := bcdToDec (u8 r.1)
  let r := r.2.read
  let year := (2000 + bcdToDec (u8 r.1)) % 65536
  ({ sec := sec, min := min, hour := hour, dayOfWeek := weekScan week_reg 7 0 dayOfWeek,
     dayOfMonth := dayOfMonth, month := month, year := year }, r.2)

/-- The method `FRTC8900::setAlarm`. -/
def setAlarm (w : TwoWire) (min hour day : Nat) (mode : AlarmMode) : Option TwoWire :=
  match updateRegisterBit w FRTC8900_REG_EXTENSION 6 (mode == AlarmMode.ALARM_DAY_OF_MONTH) with
  | none => none
  | some w =>
    let w := writeRegister w FRTC8900_REG_MIN_ALARM (decToBcd min &&& 0x7F)
    let w := writeRegister w FRTC8900_REG_HOUR_ALARM (decToBcd hour &&& 0x7F)
    if mode == AlarmMode.ALARM_DAY_OF_WEEK then
      match shl1 ((day : Int) - 1) with
      | none => none
      | some m => some (writeRegister w FRTC8900_REG_WEEK_ALARM (m &&& 0x7F))
    else
      some (writeRegister w FRTC8900_REG_WEEK_ALARM (decToBcd day &&& 0x7F))

/-- The method `FRTC8900::enableAlarm`. -/
def enableAlarm (w : TwoWire) : Option TwoWire :=
  updateRegisterBit w FRTC8900_REG_CONTROL 3 true

/-- The method `FRTC8900::disableAlarm`. -/
def disableAlarm (w : TwoWire) : Option TwoWire :=
  updateRegisterBit w FRTC8900_REG_CONTROL 3 false

/-- The method `FRTC8900::alarmFired`. -/
def alarmFired (w : TwoWire) : Bool × TwoWire :=
  let r := readRegister w FRTC8900_REG_FLAG
  (((r.1 >>> 3) &&& 1) != 0, r.2)

/-- The method `FRTC8900::clearAlarmFlag`. -/
def clearAlarmFlag (w : TwoWire) : TwoWire :=
  let r := readRegister w FRTC8900_REG_FLAG
  let flagReg := andNot r.1 (1 <<< 3)
  writeRegister r.2 FRTC8900_REG_FLAG flagReg

/-- The method `FRTC8900::enableUpdateInterrupt`; the enumerator `rate` is
converted to the `bool` parameter of `updateRegisterBit` (non-zero is `true`). -/
def enableUpdateInterrupt (w : TwoWire) (rate : UpdateRate) : Option TwoWire :=
  match updateRegisterBit w FRTC8900_REG_EXTENSION 5 (rate.val != 0) with
  | none => none
  | some w => updateRegisterBit w FRTC8900_REG_CONTROL 5 true

/-- The method `FRTC8900::disableUpdateInterrupt`. -/
def disableUpdateInterrupt (w : TwoWire) : Option TwoWire :=
  updateRegisterBit w FRTC8900_REG_CONTROL 5 false

/-- The method `FRTC8900::updateFired`. -/
def updateFired (w : TwoWire) : Bool × TwoWire :=
  let r := readRegister w FRTC8900_REG_FLAG
  (((r.1 >>> 5) &&& 1) != 0, r.2)

/-- The method `FRTC8900::clearUpdateFlag`. -/
def clearUpdateFlag (w : TwoWire) : TwoWire :=
  let r := readRegister w FRTC8900_REG_FLAG
  let flagReg := andNot r.1 (1 <<< 5)
  writeRegister r.2 FRTC8900_REG_FLAG flagReg

/-- The method `FRTC8900::enableOutput` (empty body). -/
def enableOutput (w : TwoWire) : TwoWire := w

/-- The method `FRTC8900::disableOutput` (empty body). -/
def disableOutput (w : TwoWire) : TwoWire := w

/-- The method `FRTC8900::setOutputFrequency`. -/
def setOutputFrequency (w : TwoWire) (freq : FOUT_Frequency) : TwoWire :=
  let r := readRegister w FRTC8900_REG_EXTENSION
  let extReg := andNot r.1 0b00110000
  let extReg := (extReg ||| (freq.val <<< 4)) % 256
  writeRegister r.2 FRTC8900_REG_EXTENSION extReg

/-- The method `FRTC8900::getTemperatureRaw`. -/
def getTemperatureRaw (w : TwoWire) : Nat × TwoWire :=
  readRegister w FRTC8900_REG_TEMP

/-! ## Basic facts -/

theorem u8_natCast (n : Nat) : u8 (n : Int) = n % 256 := by
  unfold u8
  omega

theorem andNot_eq_ldiff (x m : Nat) : andNot x m = Nat.ldiff x m % 256 := by
  unfold andNot
  have h : Int.land (x : Int) (Int.lnot (m : Int)) = ((Nat.ldiff x m : Nat) : Int) := rfl
  rw [h, u8_natCast]

theorem testBit_andNot (x m j : Nat) (hj : j < 8) :
    (andNot x m).testBit j = (x.testBit j && !m.testBit j) := by
  rw [andNot_eq_ldiff]
  have : (256 : Nat) = 2 ^ 8 := by norm_num
  rw [this, Nat.testBit_mod_two_pow, Nat.testBit_ldiff]
  simp [hj]

theorem andNot_lt (x m : Nat) : andNot x m < 256 := by
  rw [andNot_eq_ldiff]
  omega

theorem andNot_mod (x m : Nat) : andNot x m % 256 = andNot x m :=
  Nat.mod_eq_of_lt (andNot_lt x m)

theorem andNot_eq (x m : Nat) : andNot x m = (x ^^^ (x &&& m)) % 256 := by
  rw [andNot_eq_ldiff]
  congr 1
  apply Nat.eq_of_testBit_eq
  intro i
  rw [Nat.testBit_ldiff, Nat.testBit_xor, Nat.testBit_and]
  cases x.testBit i <;> cases m.testBit i <;> rfl

theorem readRegister_fst (w : TwoWire) (a : Nat) :
    (readRegister w a).1 = w.regs (a % 256) % 256 := by
  simp [readRegister, TwoWire.beginTransmission, TwoWire.write, TwoWire.endTransmission,
    TwoWire.requestFrom, TwoWire.read, deviceReceive, deviceWrite, deviceRead]
  unfold u8
  omega

theorem readRegister_regs (w : TwoWire) (a : Nat) : (readRegister w a).2.regs = w.regs := by
  simp [readRegister, TwoWire.beginTransmission, TwoWire.write, TwoWire.endTransmission,
    TwoWire.requestFrom, TwoWire.read, deviceReceive, deviceWrite, deviceRead]

theorem writeRegister_regs (w : TwoWire) (a d : Nat) :
    (writeRegister w a d).regs = Function.update w.regs (a % 256) (d % 256) := by
  simp [writeRegister, TwoWire.beginTransmission, TwoWire.write, TwoWire.endTransmission,
    deviceReceive, deviceWrite]

theorem shl1_natCast (k : Nat) (hk : k ≤ 14) : shl1 (k : Int) = some (2 ^ k) := by
  unfold shl1
  rw [if_pos (by omega)]
  simp

theorem shl1_pred (d : Nat) (h1 : 1 ≤ d) (h2 : d ≤ 15) :
    shl1 ((d : Int) - 1) = some (2 ^ (d - 1)) := by
  have h : ((d : Int) - 1) = ((d - 1 : Nat) : Int) := by omega
  rw [h]
  exact shl1_natCast (d - 1) (by omega)

theorem getTime_fst (w : TwoWire) (d0 : Nat) :
    (getTime w d0).1 =
      { sec := bcdToDec (w.regs 0 % 256), min := bcdToDec (w.regs 1 % 256),
        hour := bcdToDec (w.regs 2 % 256),
        dayOfWeek := weekScan (w.regs 3 % 256) 7 0 d0,
        dayOfMonth := bcdToDec (w.regs 4 % 256), month := bcdToDec (w.regs 5 % 256),
        year := (2000 + bcdToDec (w.regs 6 % 256)) % 65536 } := by
  have hu : ∀ n : Nat, u8 ((n : Int) % 256) = n % 256 := by
    intro n
    unfold u8
    omega
  simp [getTime, TwoWire.beginTransmission, TwoWire.write, TwoWire.endTransmission,
    TwoWire.requestFrom, TwoWire.read, deviceReceive, deviceWrite, deviceRead,
    FRTC8900_REG_SEC, hu]

theorem clearVoltageLowFlag_regs (w : TwoWire) :
    (clearVoltageLowFlag w).regs =
      Function.update w.regs 14 (andNot (w.regs 14 % 256) 2) := by
  unfold clearVoltageLowFlag
  simp [writeRegister_regs, readRegister_regs, readRegister_fst, FRTC8900_REG_FLAG, andNot_mod]

theorem decToBcd_mod (v : Nat) : decToBcd v % 256 = decToBcd v := by
  unfold decToBcd
  omega

theorem decToBcd_lt (v : Nat) : decToBcd v < 256 := by
  unfold decToBcd
  omega

theorem bcdToDec_decToBcd (v : Nat) (hv : v ≤ 99) : bcdToDec (decToBcd v) = v := by
  have h : ∀ n, n < 100 → bcdToDec (decToBcd n) = n := by decide
  exact h v (by omega)

theorem readRegister_trace (w : TwoWire) (a : Nat) :
    (readRegister w a).2.trace =
      w.trace ++ [BusEvent.write 0x32 [a % 256] false, BusEvent.request 0x32 1] := by
  simp [readRegister, TwoWire.beginTransmission, TwoWire.write, TwoWire.endTransmission,
    TwoWire.requestFrom, TwoWire.read, deviceReceive, deviceWrite, deviceRead,
    FRTC8900_I2C_ADDRESS]

theorem writeRegister_trace (w : TwoWire) (a d : Nat) :
    (writeRegister w a d).trace = w.trace ++ [BusEvent.write 0x32 [a % 256, d % 256] true] := by
  simp [writeRegister, TwoWire.beginTransmission, TwoWire.write, TwoWire.endTransmission,
    deviceReceive, deviceWrite, FRTC8900_I2C_ADDRESS]

theorem clearVoltageLowFlag_trace (w : TwoWire) :
    (clearVoltageLowFlag w).trace =
      w.trace ++ [BusEvent.write 0x32 [0x0E] false, BusEvent.request 0x32 1,
        BusEvent.write 0x32 [0x0E, andNot (w.regs 0x0E % 256) 2] true] := by
  unfold clearVoltageLowFlag
  simp [writeRegister_trace, readRegister_trace, readRegister_fst, FRTC8900_REG_FLAG, andNot_mod]

/-- The port after the time-data transaction of `setTime`, before the flag is cleared. -/
theorem setTime_eq (w : TwoWire) (sec min hour dayOfWeek dayOfMonth month year : Nat)
    (h1 : 1 ≤ dayOfWeek) (h7 : dayOfWeek ≤ 7) :
    setTime w sec min hour dayOfWeek dayOfMonth month year =
      some (clearVoltageLowFlag
        { w with
          regs := Function.update (Function.update (Function.update (Function.update
            (Function.update (Function.update (Function.update w.regs
              0 (decToBcd sec)) 1 (decToBcd min)) 2 (decToBcd hour)) 3 (2 ^ (dayOfWeek - 1)))
              4 (decToBcd dayOfMonth)) 5 (decToBcd month)) 6 (decToBcd (year % 100))
          ptr := 7
          txAddress := 0x32
          txBuffer := []
          trace := w.trace ++ [BusEvent.write 0x32 [0x00, decToBcd sec, decToBcd min,
            decToBcd hour, 2 ^ (dayOfWeek - 1), decToBcd dayOfMonth, decToBcd month,
            decToBcd (year % 100)] true] }) := by
  have hlt : 2 ^ (dayOfWeek - 1) % 256 = 2 ^ (dayOfWeek - 1) := by
    interval_cases dayOfWeek <;> rfl
  unfold setTime
  rw [shl1_pred dayOfWeek h1 (by omega)]
  simp [TwoWire.beginTransmission, TwoWire.write, TwoWire.endTransmission,
    deviceReceive, deviceWrite, FRTC8900_I2C_ADDRESS, FRTC8900_REG_SEC, decToBcd_mod, hlt]

theorem weekScan_pow (d d0 : Nat) (h1 : 1 ≤ d) (h7 : d ≤ 7) :
    weekScan (2 ^ (d - 1) % 256) 7 0 d0 = d := by
  interval_cases d <;> simp [weekScan]

theorem shr_and_one_ne (x k : Nat) : (((x >>> k) &&& 1) != 0) = x.testBit k := by
  rw [Nat.and_comm]
  rfl

theorem shr_and_one_eq (x k : Nat) : (((x >>> k) &&& 1) == 0) = !x.testBit k := by
  rw [← shr_and_one_ne]
  cases h : ((x >>> k) &&& 1) == 0 <;> simp_all [bne]

theorem testBit_mod_256 (x j : Nat) (hj : j < 8) : (x % 256).testBit j = x.testBit j := by
  have : (256 : Nat) = 2 ^ 8 := by norm_num
  rw [this, Nat.testBit_mod_two_pow]
  simp [hj]

theorem isTimeValid_fst (w : TwoWire) : (isTimeValid w).1 = !(w.regs 14).testBit 1 := by
  unfold isTimeValid
  simp only [shr_and_one_eq, readRegister_fst, FRTC8900_REG_FLAG]
  rw [show (14 : Nat) % 256 = 14 from rfl, testBit_mod_256 _ 1 (by decide)]

theorem testBit_andNot_two_pow (x k j : Nat) (hj : j < 8) :
    (andNot x (2 ^ k)).testBit j = (x.testBit j && !decide (k = j)) := by
  rw [testBit_andNot x _ j hj, Nat.testBit_two_pow]

theorem testBit_andNot_two (x j : Nat) (hj : j < 8) :
    (andNot x 2).testBit j = (x.testBit j && !decide (1 = j)) :=
  testBit_andNot_two_pow x 1 j hj

theorem testBit_or_two_pow (x k j : Nat) (hj : j < 8) :
    ((x ||| 2 ^ k) % 256).testBit j = (x.testBit j || decide (k = j)) := by
  rw [testBit_mod_256 _ j hj, Nat.testBit_or, Nat.testBit_two_pow]

theorem updateRegisterBit_eq (w : TwoWire) (a k : Nat) (value : Bool) (hk : k ≤ 14) :
    updateRegisterBit w a k value =
      some (writeRegister (readRegister w a).2 a
        (if value then ((readRegister w a).1 ||| 2 ^ k) % 256
         else andNot (readRegister w a).1 (2 ^ k))) := by
  unfold updateRegisterBit
  rw [shl1_natCast k hk]

/-- The register file after a defined `updateRegisterBit` on a byte address. -/
theorem updateRegisterBit_regs (w : TwoWire) (a k : Nat) (value : Bool)
    (ha : a < 256) (hk : k ≤ 14) :
    ∃ w', updateRegisterBit w a k value = some w' ∧
      w'.regs = Function.update w.regs a
        (if value then (w.regs a % 256 ||| 2 ^ k) % 256 else andNot (w.regs a % 256) (2 ^ k)) := by
  refine ⟨_, updateRegisterBit_eq w a k value hk, ?_⟩
  rw [writeRegister_regs, readRegister_regs, readRegister_fst, Nat.mod_eq_of_lt ha]
  cases value <;> simp [andNot_mod]

theorem decToBcd_and_7F (n : Nat) (hn : n ≤ 79) : decToBcd n &&& 0x7F = decToBcd n := by
  have h : ∀ m, m < 80 → decToBcd m &&& 0x7F = decToBcd m := by decide
  exact h n (by omega)

theorem decToBcd_testBit_7 (n : Nat) (hn : n ≤ 79) : (decToBcd n).testBit 7 = false := by
  have h : ∀ m, m < 80 → (decToBcd m).testBit 7 = false := by decide
  exact h n (by omega)

theorem and_7F_mod (x : Nat) : (x &&& 0x7F) % 256 = x &&& 0x7F := by
  apply Nat.mod_eq_of_lt
  have h : x &&& 0x7F ≤ 0x7F := Nat.and_le_right
  omega

/-- The port after `setAlarm`, in terms of the register primitives. -/
theorem setAlarm_eq (w : TwoWire) (min hour day : Nat) (mode : AlarmMode)
    (hday : mode = AlarmMode.ALARM_DAY_OF_WEEK → 1 ≤ day ∧ day ≤ 15) :
    ∃ w1, updateRegisterBit w 0x0D 6 (mode == AlarmMode.ALARM_DAY_OF_MONTH) = some w1 ∧
      w1.regs = Function.update w.regs 0x0D
        (if (mode == AlarmMode.ALARM_DAY_OF_MONTH) = true then (w.regs 0x0D % 256 ||| 2 ^ 6) % 256
         else andNot (w.regs 0x0D % 256) (2 ^ 6)) ∧
      setAlarm w min hour day mode =
        some (writeRegister (writeRegister (writeRegister w1 0x08 (decToBcd min &&& 0x7F))
          0x09 (decToBcd hour &&& 0x7F)) 0x0A
          (if mode = AlarmMode.ALARM_DAY_OF_WEEK then 2 ^ (day - 1) &&& 0x7F
           else decToBcd day &&& 0x7F)) := by
  obtain ⟨w1, h1, hr⟩ := updateRegisterBit_regs w 0x0D 6
    (mode == AlarmMode.ALARM_DAY_OF_MONTH) (by decide) (by decide)
  refine ⟨w1, h1, hr, ?_⟩
  unfold setAlarm
  simp only [FRTC8900_REG_EXTENSION, FRTC8900_REG_MIN_ALARM, FRTC8900_REG_HOUR_ALARM,
    FRTC8900_REG_WEEK_ALARM]
  rw [h1]
  cases mode
  · obtain ⟨hd1, hd2⟩ := hday rfl
    simp [shl1_pred day hd1 hd2]
  · simp

/-- Bit-level effect of a defined `updateRegisterBit` on a byte address. -/
theorem updateRegisterBit_bits (w : TwoWire) (a k : Nat) (value : Bool)
    (ha : a < 256) (hk : k ≤ 7) :
    ∃ w', updateRegisterBit w a k value = some w' ∧
      (w'.regs a).testBit k = value ∧
      (∀ j, j < 8 → j ≠ k → (w'.regs a).testBit j = (w.regs a).testBit j) ∧
      (∀ b, b ≠ a → w'.regs b = w.regs b) := by
  obtain ⟨w', hw, hr⟩ := updateRegisterBit_regs w a k value ha (by omega)
  refine ⟨w', hw, ?_, ?_, ?_⟩
  · rw [hr]
    cases value <;>
      simp [testBit_or_two_pow, testBit_andNot_two_pow, show k < 8 by omega]
  · intro j hj hjk
    rw [hr]
    cases value <;>
      simp [testBit_or_two_pow, testBit_andNot_two_pow, hj, testBit_mod_256, Ne.symm hjk]
  · intro b hb
    rw [hr]
    simp [Function.update, hb]

/-- Bit-level effect of `enableUpdateInterrupt`. -/
theorem enableUpdateInterrupt_bits (w : TwoWire) (rate : UpdateRate) :
    ∃ w', enableUpdateInterrupt w rate = some w' ∧
      (w'.regs 0x0D).testBit 5 = (rate.val != 0) ∧
      (w'.regs 0x0F).testBit 5 = true ∧
      (∀ j, j < 8 → j ≠ 5 → (w'.regs 0x0D).testBit j = (w.regs 0x0D).testBit j) ∧
      (∀ j, j < 8 → j ≠ 5 → (w'.regs 0x0F).testBit j = (w.regs 0x0F).testBit j) ∧
      (∀ b, b ≠ 0x0D → b ≠ 0x0F → w'.regs b = w.regs b) := by
  obtain ⟨w1, h1, hb1, ho1, hf1⟩ :=
    updateRegisterBit_bits w 0x0D 5 (rate.val != 0) (by decide) (by decide)
  obtain ⟨w2, h2, hb2, ho2, hf2⟩ := updateRegisterBit_bits w1 0x0F 5 true (by decide) (by decide)
  refine ⟨w2, ?_, ?_, hb2, ?_, ?_, ?_⟩
  · unfold enableUpdateInterrupt
    simp only [FRTC8900_REG_EXTENSION, FRTC8900_REG_CONTROL]
    rw [h1]
    exact h2
  · rw [hf2 0x0D (by decide)]
    exact hb1
  · intro j hj hj5
    rw [hf2 0x0D (by decide)]
    exact ho1 j hj hj5
  · intro j hj hj5
    rw [ho2 j hj hj5, hf1 0x0F (by decide)]
  · intro b hbD hbF
    rw [hf2 b hbF, hf1 b hbD]

theorem setOutputFrequency_regs (w : TwoWire) (freq : FOUT_Frequency) :
    (setOutputFrequency w freq).regs = Function.update w.regs 0x0D
      ((andNot (w.regs 0x0D % 256) 0b00110000 ||| (freq.val <<< 4)) % 256) := by
  unfold setOutputFrequency
  simp [writeRegister_regs, readRegister_regs, readRegister_fst, FRTC8900_REG_EXTENSION]

theorem andNot_0x30 (e : Nat) (he : e < 256) : andNot e 0x30 = e &&& 0xCF := by
  rw [andNot_eq]
  have h : ∀ n, n < 256 → (n ^^^ (n &&& 0x30)) % 256 = n &&& 0xCF     := by
    set_option maxRecDepth 100000 in decide
  exact h e he

theorem alarmFired_fst (w : TwoWire) : (alarmFired w).1 = (w.regs 14).testBit 3 := by
  unfold alarmFired
  simp only [shr_and_one_ne, readRegister_fst, FRTC8900_REG_FLAG]
  rw [show (14 : Nat) % 256 = 14 from rfl, testBit_mod_256 _ 3 (by decide)]

theorem updateFired_fst (w : TwoWire) : (updateFired w).1 = (w.regs 14).testBit 5 := by
  unfold updateFired
  simp only [shr_and_one_ne, readRegister_fst, FRTC8900_REG_FLAG]
  rw [show (14 : Nat) % 256 = 14 from rfl, testBit_mod_256 _ 5 (by decide)]

theorem clearVoltageLowFlag_eq (w : TwoWire) :
    updateRegisterBit w 0x0E 1 false = some (clearVoltageLowFlag w) :=
  updateRegisterBit_eq w 0x0E 1 false (by decide)

theorem clearAlarmFlag_eq (w : TwoWire) :
    updateRegisterBit w 0x0E 3 false = some (clearAlarmFlag w) :=
  updateRegisterBit_eq w 0x0E 3 false (by decide)

theorem clearUpdateFlag_eq (w : TwoWire) :
    updateRegisterBit w 0x0E 5 false = some (clearUpdateFlag w) :=
  updateRegisterBit_eq w 0x0E 5 false (by decide)

/-- The lowest set bit found by the weekday scan: if bit `k` is the first set bit at
or after the loop counter `i` and the loop still reaches it, the scan assigns `k + 1`. -/
theorem weekScan_lowest (x d0 : Nat) :
    ∀ n i k, i ≤ k → k < i + n → x.testBit k = true →
      (∀ j, i ≤ j → j < k → x.testBit j = false) →
      weekScan x n i d0 = (k + 1) % 256 := by
  intro n
  induction n with
  | zero =>
    intro i k h1 h2
    omega
  | succ n ih =>
    intro i k h1 h2 hk hlow
    unfold weekScan
    by_cases hi : i = k
    · subst hi
      have hb : (((x >>> i) &&& 1) != 0) = true := by rw [shr_and_one_ne]; exact hk
      have hne : (x >>> i) &&& 1 ≠ 0 := by simpa [bne] using hb
      rw [if_pos hne]
    · have hf : x.testBit i = false := hlow i (Nat.le_refl i) (by omega)
      have hb : (((x >>> i) &&& 1) != 0) = false := by rw [shr_and_one_ne]; exact hf
      have hne : ¬ ((x >>> i) &&& 1 ≠ 0) := by simpa [bne] using hb
      rw [if_neg hne]
      exact ih (i + 1) k (by omega) (by omega) hk (fun j hj1 hj2 => hlow j (by omega) hj2)

/-- When no bit in the scanned range is set, the weekday scan assigns nothing. -/
theorem weekScan_none (x d0 : Nat) :
    ∀ n i, (∀ j, i ≤ j → j < i + n → x.testBit j = false) → weekScan x n i d0 = d0 := by
  intro n
  induction n with
  | zero =>
    intro i _
    rfl
  | succ n ih =>
    intro i h
    unfold weekScan
    have hf : x.testBit i = false := h i (Nat.le_refl i) (by omega)
    have hb : (((x >>> i) &&& 1) != 0) = false := by rw [shr_and_one_ne]; exact hf
    have hne : ¬ ((x >>> i) &&& 1 ≠ 0) := by simpa [bne] using hb
    rw [if_neg hne]
    exact ih (i + 1) (fun j hj1 hj2 => h j (by omega) (by omega))

theorem getTime_regs (w : TwoWire) (d0 : Nat) : (getTime w d0).2.regs = w.regs := by
  simp [getTime, TwoWire.beginTransmission, TwoWire.write, TwoWire.endTransmission,
    TwoWire.requestFrom, TwoWire.read, deviceReceive, deviceWrite, deviceRead]

theorem isTimeValid_regs (w : TwoWire) : (isTimeValid w).2.regs = w.regs := by
  unfold isTimeValid
  exact readRegister_regs w FRTC8900_REG_FLAG

/-- Bit-level effect of clearing flag bit `k` through `updateRegisterBit`, transported
to any function `f` that computes the same port. -/
theorem clearFlag_bits (w : TwoWire) (k : Nat) (hk : k ≤ 7) (f : TwoWire → TwoWire)
    (hf : updateRegisterBit w 0x0E k false = some (f w)) :
    ((f w).regs 0x0E).testBit k = false ∧
    (∀ j, j < 8 → j ≠ k → ((f w).regs 0x0E).testBit j = (w.regs 0x0E).testBit j) ∧
    (∀ b, b ≠ 0x0E → (f w).regs b = w.regs b) := by
  obtain ⟨w', hw, hb, ho, hr⟩ := updateRegisterBit_bits w 0x0E k false (by decide) hk
  rw [hf] at hw
  cases hw
  exact ⟨hb, ho, hr⟩

theorem eq_of_testBit_lt_8 (x y : Nat) (hx : x < 256) (hy : y < 256)
    (h : ∀ j, j < 8 → x.testBit j = y.testBit j) : x = y := by
  apply Nat.eq_of_testBit_eq
  intro j
  by_cases hj : j < 8
  · exact h j hj
  · have hp : (256 : Nat) ≤ 2 ^ j := by
      have : (2 : Nat) ^ 8 ≤ 2 ^ j := Nat.pow_le_pow_right (by decide) (by omega)
      simpa using this
    rw [Nat.testBit_lt_two_pow (by omega), Nat.testBit_lt_two_pow (by omega)]

/-- Writing bit `k` of a byte twice is the same as writing it once with the last value. -/
theorem setBit_setBit (x k : Nat) (v1 v2 : Bool) :
    (if v2 = true then
        ((if v1 = true then (x % 256 ||| 2 ^ k) % 256 else andNot (x % 256) (2 ^ k)) % 256
          ||| 2 ^ k) % 256
      else
        andNot ((if v1 = true then (x % 256 ||| 2 ^ k) % 256
          else andNot (x % 256) (2 ^ k)) % 256) (2 ^ k)) =
      (if v2 = true then (x % 256 ||| 2 ^ k) % 256 else andNot (x % 256) (2 ^ k)) := by
  apply eq_of_testBit_lt_8
  · cases v2
    · simpa using andNot_lt _ _
    · simpa using Nat.mod_lt _ (by decide)
  · cases v2
    · simpa using andNot_lt _ _
    · simpa using Nat.mod_lt _ (by decide)
  · intro j hj
    cases v1 <;> cases v2 <;>
      simp only [if_true, if_false, Bool.false_eq_true, andNot_mod, Nat.mod_mod,
        testBit_or_two_pow _ k j hj, testBit_andNot_two_pow _ k j hj, testBit_mod_256 _ j hj] <;>
      cases (x.testBit j) <;> cases (decide (k = j)) <;> rfl

/-- The register file after a defined `setAlarm`. -/
theorem setAlarm_regs (w : TwoWire) (min hour day : Nat) (mode : AlarmMode)
    (hday : mode = AlarmMode.ALARM_DAY_OF_WEEK → 1 ≤ day ∧ day ≤ 15) :
    ∃ w', setAlarm w min hour day mode = some w' ∧
      w'.regs = Function.update (Function.update (Function.update (Function.update w.regs 0x0D
        (if (mode == AlarmMode.ALARM_DAY_OF_MONTH) = true then (w.regs 0x0D % 256 ||| 2 ^ 6) % 256
         else andNot (w.regs 0x0D % 256) (2 ^ 6)))
        0x08 (decToBcd min &&& 0x7F)) 0x09 (decToBcd hour &&& 0x7F)) 0x0A
          (if mode = AlarmMode.ALARM_DAY_OF_WEEK then 2 ^ (day - 1) &&& 0x7F
           else decToBcd day &&& 0x7F) := by
  obtain ⟨w1, _, hr, hs⟩ := setAlarm_eq w min hour day mode hday
  refine ⟨_, hs, ?_⟩
  simp only [writeRegister_regs, hr]
  cases mode <;> simp [and_7F_mod]

theorem decToBcd_bcdToDec (b : Nat) (hhi : b / 16 ≤ 9) (hlo : b % 16 ≤ 9) :
    decToBcd (bcdToDec b) = b := by
  have h : ∀ n, n < 160 → n / 16 ≤ 9 → n % 16 ≤ 9 → decToBcd (bcdToDec n) = n := by
    set_option maxRecDepth 100000 in decide
  exact h b (by omega) hhi hlo

theorem bcdToDec_le_99 (b : Nat) (hhi : b / 16 ≤ 9) (hlo : b % 16 ≤ 9) : bcdToDec b ≤ 99 := by
  have h : ∀ n, n < 160 → n / 16 ≤ 9 → n % 16 ≤ 9 → bcdToDec n ≤ 99 := by
    set_option maxRecDepth 100000 in decide
  exact h b (by omega) hhi hlo

/-- Bit 5 of the extension register after `setOutputFrequency` is bit 1 of the code. -/
theorem setOutputFrequency_bit5 (w : TwoWire) (freq : FOUT_Frequency) :
    ((setOutputFrequency w freq).regs 0x0D).testBit 5 = freq.val.testBit 1 := by
  rw [setOutputFrequency_regs]
  simp only [Function.update_same]
  rw [testBit_mod_256 _ 5 (by decide), Nat.testBit_or, testBit_andNot _ _ 5 (by decide)]
  have h48 : Nat.testBit 0b00110000 5 = true := by decide
  rw [h48]
  simp only [Bool.not_true, Bool.and_false, Bool.false_or]
  cases freq <;> decide

/-! ## Claims -/

/-- C1: on the simulated register file, `setTime` followed by `getTime` returns the
same sec, min, hour, dayOfWeek, dayOfMonth and month (all BCD fields in 0..99,
dayOfWeek in 1..7) and the year `2000 + year % 100`, which is the supplied year
whenever it lies in 2000..2099; this holds for every initial port state and every
prior value `d0` of the caller's `dayOfWeek` variable. -/
theorem setTime_getTime_roundtrip (w : TwoWire)
    (sec min hour dayOfWeek dayOfMonth month year d0 : Nat)
    (hsec : sec ≤ 99) (hmin : min ≤ 99) (hhour : hour ≤ 99)
    (hdow1 : 1 ≤ dayOfWeek) (hdow7 : dayOfWeek ≤ 7)
    (hdom : dayOfMonth ≤ 99) (hmonth : month ≤ 99) (hyear : year < 65536) :
    ∃ w', setTime w sec min hour dayOfWeek dayOfMonth month year = some w' ∧
      (getTime w' d0).1 =
        { sec := sec, min := min, hour := hour, dayOfWeek := dayOfWeek,
          dayOfMonth := dayOfMonth, month := month, year := 2000 + year % 100 } ∧
      (2000 ≤ year → year ≤ 2099 → (getTime w' d0).1.year = year) := by
  have hy : year % 100 ≤ 99 := by omega
  have key : (getTime (clearVoltageLowFlag
        { w with
          regs := Function.update (Function.update (Function.update (Function.update
            (Function.update (Function.update (Function.update w.regs
              0 (decToBcd sec)) 1 (decToBcd min)) 2 (decToBcd hour)) 3 (2 ^ (dayOfWeek - 1)))
              4 (decToBcd dayOfMonth)) 5 (decToBcd month)) 6 (decToBcd (year % 100))
          ptr := 7
          txAddress := 0x32
          txBuffer := []
          trace := w.trace ++ [BusEvent.write 0x32 [0x00, decToBcd sec, decToBcd min,
            decToBcd hour, 2 ^ (dayOfWeek - 1), decToBcd dayOfMonth, decToBcd month,
            decToBcd (year % 100)] true] }) d0).1 =
        { sec := sec, min := min, hour := hour, dayOfWeek := dayOfWeek,
          dayOfMonth := dayOfMonth, month := month, year := 2000 + year % 100 } := by
    rw [getTime_fst, clearVoltageLowFlag_regs]
    simp [Function.update, decToBcd_mod, bcdToDec_decToBcd, hsec, hmin, hhour, hdom, hmonth, hy,
      weekScan_pow dayOfWeek d0 hdow1 hdow7]
    omega
  refine ⟨_, setTime_eq w sec min hour dayOfWeek dayOfMonth month year hdow1 hdow7, key, ?_⟩
  intro h1 h2
  rw [key]
  show 2000 + year % 100 = year
  omega

/-- Witness for C1: the round trip at 23:59:58 on Saturday 31.12.2099. -/
theorem setTime_getTime_roundtrip_witness :
    ∃ w', setTime ⟨fun _ => 0xFF, 0, 0, [], [], []⟩ 58 59 23 7 31 12 2099 = some w' ∧
      (getTime w' 0).1 =
        { sec := 58, min := 59, hour := 23, dayOfWeek := 7,
          dayOfMonth := 31, month := 12, year := 2000 + 2099 % 100 } ∧
      (2000 ≤ 2099 → 2099 ≤ 2099 → (getTime w' 0).1.year = 2099) :=
  setTime_getTime_roundtrip ⟨fun _ => 0xFF, 0, 0, [], [], []⟩ 58 59 23 7 31 12 2099 0
    (by decide) (by decide) (by decide) (by decide) (by decide) (by decide) (by decide)
    (by decide)

/-- C2: the 8-bit helpers are `decToBcd v = (v/10)*16 + v%10` and
`bcdToDec b = (b/16)*10 + b%16` (each converted to `uint8_t`), and for every decimal
`v` in 0..99 `bcdToDec (decToBcd v) = v`. -/
theorem bcd_roundtrip (v : Nat) (hv : v ≤ 99) :
    decToBcd v = ((v / 10) * 16 + v % 10) % 256 ∧
    (∀ b, bcdToDec b = ((b / 16) * 10 + b % 16) % 256) ∧
    bcdToDec (decToBcd v) = v :=
  ⟨rfl, fun _ => rfl, bcdToDec_decToBcd v hv⟩

/-- Witness for C2: the round trip at `v = 59`. -/
theorem bcd_roundtrip_witness :
    decToBcd 59 = ((59 / 10) * 16 + 59 % 10) % 256 ∧
    (∀ b, bcdToDec b = ((b / 16) * 10 + b % 16) % 256) ∧
    bcdToDec (decToBcd 59) = 59 :=
  bcd_roundtrip 59 (by decide)

/-- C3: for every sec, min, hour, dayOfMonth, month (in particular those in 0..99),
dayOfWeek in 1..7 and every year, `setTime` succeeds and appends to the bus trace one write transaction to
address 0x32 carrying exactly the 8 bytes `[0x00, decToBcd sec, decToBcd min,
decToBcd hour, 1 << (dayOfWeek-1), decToBcd dayOfMonth, decToBcd month,
decToBcd (year % 100)]` (followed only by the three operations of the flag
clearing); afterwards registers 0x00..0x06 hold the seven data bytes, and the
weekday byte has exactly one bit set, at position `dayOfWeek - 1` among bits 0..6. -/
theorem setTime_transaction (w : TwoWire)
    (sec min hour dayOfWeek dayOfMonth month year : Nat)
    (hdow1 : 1 ≤ dayOfWeek) (hdow7 : dayOfWeek ≤ 7) :
    ∃ w', setTime w sec min hour dayOfWeek dayOfMonth month year = some w' ∧
      w'.trace = w.trace ++
        [BusEvent.write 0x32 [0x00, decToBcd sec, decToBcd min, decToBcd hour,
            1 <<< (dayOfWeek - 1), decToBcd dayOfMonth, decToBcd month,
            decToBcd (year % 100)] true,
          BusEvent.write 0x32 [0x0E] false,
          BusEvent.request 0x32 1,
          BusEvent.write 0x32 [0x0E, andNot (w.regs 0x0E % 256) 2] true] ∧
      w'.regs 0x00 = decToBcd sec ∧ w'.regs 0x01 = decToBcd min ∧
      w'.regs 0x02 = decToBcd hour ∧ w'.regs 0x03 = 1 <<< (dayOfWeek - 1) ∧
      w'.regs 0x04 = decToBcd dayOfMonth ∧ w'.regs 0x05 = decToBcd month ∧
      w'.regs 0x06 = decToBcd (year % 100) ∧
      dayOfWeek - 1 < 7 ∧
      (∀ i, i < 8 → ((1 <<< (dayOfWeek - 1)).testBit i = true ↔ i = dayOfWeek - 1)) := by
  refine ⟨_, setTime_eq w sec min hour dayOfWeek dayOfMonth month year hdow1 hdow7, ?_, ?_, ?_,
    ?_, ?_, ?_, ?_, ?_, ?_, ?_⟩
  · rw [clearVoltageLowFlag_trace]
    simp [Function.update, Nat.shiftLeft_eq]
  · rw [clearVoltageLowFlag_regs]; simp [Function.update]
  · rw [clearVoltageLowFlag_regs]; simp [Function.update]
  · rw [clearVoltageLowFlag_regs]; simp [Function.update]
  · rw [clearVoltageLowFlag_regs]; simp [Function.update, Nat.shiftLeft_eq]
  · rw [clearVoltageLowFlag_regs]; simp [Function.update]
  · rw [clearVoltageLowFlag_regs]; simp [Function.update]
  · rw [clearVoltageLowFlag_regs]; simp [Function.update]
  · omega
  · intro i _
    rw [Nat.shiftLeft_eq, Nat.one_mul, Nat.testBit_two_pow]
    simp [eq_comm]

/-- Witness for C3: the transaction of `setTime(58, 59, 23, 7, 31, 12, 2099)`. -/
theorem setTime_transaction_witness :
    ∃ w', setTime ⟨fun _ => 0xFF, 0, 0, [], [], []⟩ 58 59 23 7 31 12 2099 = some w' ∧
      w'.trace = [] ++
        [BusEvent.write 0x32 [0x00, decToBcd 58, decToBcd 59, decToBcd 23,
            1 <<< (7 - 1), decToBcd 31, decToBcd 12, decToBcd (2099 % 100)] true,
          BusEvent.write 0x32 [0x0E] false,
          BusEvent.request 0x32 1,
          BusEvent.write 0x32 [0x0E, andNot (0xFF % 256) 2] true] ∧
      w'.regs 0x00 = decToBcd 58 ∧ w'.regs 0x01 = decToBcd 59 ∧
      w'.regs 0x02 = decToBcd 23 ∧ w'.regs 0x03 = 1 <<< (7 - 1) ∧
      w'.regs 0x04 = decToBcd 31 ∧ w'.regs 0x05 = decToBcd 12 ∧
      w'.regs 0x06 = decToBcd (2099 % 100) ∧
      7 - 1 < 7 ∧
      (∀ i, i < 8 → ((1 <<< (7 - 1)).testBit i = true ↔ i = 7 - 1)) :=
  setTime_transaction ⟨fun _ => 0xFF, 0, 0, [], [], []⟩ 58 59 23 7 31 12 2099
    (by decide) (by decide)

/-- C4: for every initial register file and every `setTime` arguments with
dayOfWeek in 1..7, `setTime` succeeds, `isTimeValid` then returns true (also after
a further `clearVoltageLowFlag`), and each of the eight bits of flag register 0x0E
other than bit 1 keeps the value it had before the call. -/
theorem setTime_isTimeValid (w : TwoWire)
    (sec min hour dayOfWeek dayOfMonth month year : Nat)
    (hdow1 : 1 ≤ dayOfWeek) (hdow7 : dayOfWeek ≤ 7) :
    ∃ w', setTime w sec min hour dayOfWeek dayOfMonth month year = some w' ∧
      (isTimeValid w').1 = true ∧
      (isTimeValid (clearVoltageLowFlag w')).1 = true ∧
      (∀ j, j < 8 → j ≠ 1 → (w'.regs 0x0E).testBit j = (w.regs 0x0E).testBit j) ∧
      (∀ j, j < 8 → j ≠ 1 →
        ((clearVoltageLowFlag w').regs 0x0E).testBit j = (w.regs 0x0E).testBit j) := by
  refine ⟨_, setTime_eq w sec min hour dayOfWeek dayOfMonth month year hdow1 hdow7, ?_, ?_, ?_, ?_⟩
  · rw [isTimeValid_fst, clearVoltageLowFlag_regs]
    simp [Function.update, testBit_andNot_two]
  · rw [isTimeValid_fst, clearVoltageLowFlag_regs, clearVoltageLowFlag_regs]
    simp [Function.update, testBit_andNot_two]
  · intro j hj hj1
    rw [clearVoltageLowFlag_regs]
    simp [Function.update, testBit_andNot_two, hj, testBit_mod_256, Ne.symm hj1]
  · intro j hj hj1
    rw [clearVoltageLowFlag_regs, clearVoltageLowFlag_regs]
    simp [Function.update, testBit_andNot_two, hj, testBit_mod_256, Ne.symm hj1, andNot_mod]

/-- Witness for C4: `setTime` on a register file whose flag register is 0xFF (VLF set). -/
theorem setTime_isTimeValid_witness :
    ∃ w', setTime ⟨fun _ => 0xFF, 0, 0, [], [], []⟩ 0 0 0 1 1 1 2000 = some w' ∧
      (isTimeValid w').1 = true ∧
      (isTimeValid (clearVoltageLowFlag w')).1 = true ∧
      (∀ j, j < 8 → j ≠ 1 → (w'.regs 0x0E).testBit j = (0xFF : Nat).testBit j) ∧
      (∀ j, j < 8 → j ≠ 1 →
        ((clearVoltageLowFlag w').regs 0x0E).testBit j = (0xFF : Nat).testBit j) :=
  setTime_isTimeValid ⟨fun _ => 0xFF, 0, 0, [], [], []⟩ 0 0 0 1 1 1 2000 (by decide) (by decide)

/-- C5: for every byte address `a`, bit index `k` in 0..7, Boolean `value` and
initial register file, `updateRegisterBit a k value` succeeds and leaves register
`a` with bit `k` equal to `value`, its seven other bits as they were, and every
other register unchanged. -/
theorem updateRegisterBit_only_bit (w : TwoWire) (a k : Nat) (value : Bool)
    (ha : a < 256) (hk : k ≤ 7) :
    ∃ w', updateRegisterBit w a k value = some w' ∧
      (w'.regs a).testBit k = value ∧
      (∀ j, j < 8 → j ≠ k → (w'.regs a).testBit j = (w.regs a).testBit j) ∧
      (∀ b, b ≠ a → w'.regs b = w.regs b) :=
  updateRegisterBit_bits w a k value ha hk

/-- Witness for C5: setting bit 7 of register 0x0F on an all-zero register file. -/
theorem updateRegisterBit_only_bit_witness :
    ∃ w', updateRegisterBit ⟨fun _ => 0, 0, 0, [], [], []⟩ 0x0F 7 true = some w' ∧
      (w'.regs 0x0F).testBit 7 = true ∧
      (∀ j, j < 8 → j ≠ 7 → (w'.regs 0x0F).testBit j = (0 : Nat).testBit j) ∧
      (∀ b, b ≠ 0x0F → w'.regs b = 0) :=
  updateRegisterBit_only_bit ⟨fun _ => 0, 0, 0, [], [], []⟩ 0x0F 7 true (by decide) (by decide)

/-- C6: for every initial register file, min and hour in 0..59 and day in 1..7,
`setAlarm min hour day ALARM_DAY_OF_WEEK` succeeds and leaves extension register
0x0D with bit 6 = 0 and its other seven bits unchanged, register 0x08 = `decToBcd min`,
register 0x09 = `decToBcd hour`, register 0x0A = `1 << (day-1)`, each of the three
with bit 7 = 0. -/
theorem setAlarm_dayOfWeek (w : TwoWire) (min hour day : Nat)
    (hmin : min ≤ 59) (hhour : hour ≤ 59) (hday1 : 1 ≤ day) (hday7 : day ≤ 7) :
    ∃ w', setAlarm w min hour day AlarmMode.ALARM_DAY_OF_WEEK = some w' ∧
      (w'.regs 0x0D).testBit 6 = false ∧
      (∀ j, j < 8 → j ≠ 6 → (w'.regs 0x0D).testBit j = (w.regs 0x0D).testBit j) ∧
      w'.regs 0x08 = decToBcd min ∧ w'.regs 0x09 = decToBcd hour ∧
      w'.regs 0x0A = 1 <<< (day - 1) ∧
      (w'.regs 0x08).testBit 7 = false ∧ (w'.regs 0x09).testBit 7 = false ∧
      (w'.regs 0x0A).testBit 7 = false := by
  obtain ⟨w1, _, hr, hs⟩ := setAlarm_eq w min hour day AlarmMode.ALARM_DAY_OF_WEEK
    (fun _ => ⟨hday1, by omega⟩)
  have hd : (2 ^ (day - 1) &&& 0x7F) = 1 <<< (day - 1) := by
    interval_cases day <;> rfl
  have hd7 : (1 <<< (day - 1)).testBit 7 = false := by
    interval_cases day <;> rfl
  have e8 : (writeRegister (writeRegister (writeRegister w1 0x08 (decToBcd min &&& 0x7F))
      0x09 (decToBcd hour &&& 0x7F)) 0x0A (2 ^ (day - 1) &&& 0x7F)).regs 0x08 = decToBcd min := by
    simp [writeRegister_regs, Function.update, decToBcd_lt, decToBcd_and_7F min (by omega)]
  have e9 : (writeRegister (writeRegister (writeRegister w1 0x08 (decToBcd min &&& 0x7F))
      0x09 (decToBcd hour &&& 0x7F)) 0x0A (2 ^ (day - 1) &&& 0x7F)).regs 0x09 = decToBcd hour := by
    simp [writeRegister_regs, Function.update, decToBcd_lt, decToBcd_and_7F hour (by omega)]
  have eA : (writeRegister (writeRegister (writeRegister w1 0x08 (decToBcd min &&& 0x7F))
      0x09 (decToBcd hour &&& 0x7F)) 0x0A (2 ^ (day - 1) &&& 0x7F)).regs 0x0A
        = 1 <<< (day - 1) := by
    have hlt : 1 <<< (day - 1) < 256 := by
      interval_cases day <;> decide
    simp [writeRegister_regs, Function.update, hd, hlt]
  have eD : (writeRegister (writeRegister (writeRegister w1 0x08 (decToBcd min &&& 0x7F))
      0x09 (decToBcd hour &&& 0x7F)) 0x0A (2 ^ (day - 1) &&& 0x7F)).regs 0x0D
        = andNot (w.regs 0x0D % 256) (2 ^ 6) := by
    simp [writeRegister_regs, Function.update, hr]
  refine ⟨_, by simpa using hs, ?_, ?_, e8, e9, eA, ?_, ?_, ?_⟩
  · rw [eD, testBit_andNot_two_pow _ 6 6 (by decide)]
    simp
  · intro j hj hj6
    rw [eD, testBit_andNot_two_pow _ 6 j hj, testBit_mod_256 _ j hj]
    simp [Ne.symm hj6]
  · rw [e8]; exact decToBcd_testBit_7 min (by omega)
  · rw [e9]; exact decToBcd_testBit_7 hour (by omega)
  · rw [eA]; exact hd7

/-- Witness for C6: `setAlarm(30, 14, 3, ALARM_DAY_OF_WEEK)` gives extension bit 6 = 0,
register 0x08 = 0x30, register 0x09 = 0x14 and register 0x0A = 0x04. -/
theorem setAlarm_dayOfWeek_witness :
    (∃ w', setAlarm ⟨fun _ => 0xFF, 0, 0, [], [], []⟩ 30 14 3 AlarmMode.ALARM_DAY_OF_WEEK
        = some w' ∧
      (w'.regs 0x0D).testBit 6 = false ∧
      (∀ j, j < 8 → j ≠ 6 → (w'.regs 0x0D).testBit j = (0xFF : Nat).testBit j) ∧
      w'.regs 0x08 = decToBcd 30 ∧ w'.regs 0x09 = decToBcd 14 ∧
      w'.regs 0x0A = 1 <<< (3 - 1) ∧
      (w'.regs 0x08).testBit 7 = false ∧ (w'.regs 0x09).testBit 7 = false ∧
      (w'.regs 0x0A).testBit 7 = false) ∧
    decToBcd 30 = 0x30 ∧ decToBcd 14 = 0x14 ∧ 1 <<< (3 - 1) = 0x04 :=
  ⟨setAlarm_dayOfWeek ⟨fun _ => 0xFF, 0, 0, [], [], []⟩ 30 14 3
      (by decide) (by decide) (by decide) (by decide),
    by decide, by decide, by decide⟩

/-- C7: for every initial register file, min and hour in 0..59 and day in 1..31,
`setAlarm min hour day ALARM_DAY_OF_MONTH` succeeds and leaves extension register
0x0D with bit 6 = 1 and its other seven bits unchanged, register 0x0A = `decToBcd day`
with bit 7 = 0, and registers 0x08, 0x09 = `decToBcd min`, `decToBcd hour`. -/
theorem setAlarm_dayOfMonth (w : TwoWire) (min hour day : Nat)
    (hmin : min ≤ 59) (hhour : hour ≤ 59) (hday1 : 1 ≤ day) (hday31 : day ≤ 31) :
    ∃ w', setAlarm w min hour day AlarmMode.ALARM_DAY_OF_MONTH = some w' ∧
      (w'.regs 0x0D).testBit 6 = true ∧
      (∀ j, j < 8 → j ≠ 6 → (w'.regs 0x0D).testBit j = (w.regs 0x0D).testBit j) ∧
      w'.regs 0x0A = decToBcd day ∧ (w'.regs 0x0A).testBit 7 = false ∧
      w'.regs 0x08 = decToBcd min ∧ w'.regs 0x09 = decToBcd hour := by
  obtain ⟨w1, _, hr, hs⟩ := setAlarm_eq w min hour day AlarmMode.ALARM_DAY_OF_MONTH
    (fun h => by cases h)
  have e8 : (writeRegister (writeRegister (writeRegister w1 0x08 (decToBcd min &&& 0x7F))
      0x09 (decToBcd hour &&& 0x7F)) 0x0A (decToBcd day &&& 0x7F)).regs 0x08 = decToBcd min := by
    simp [writeRegister_regs, Function.update, decToBcd_lt, decToBcd_and_7F min (by omega)]
  have e9 : (writeRegister (writeRegister (writeRegister w1 0x08 (decToBcd min &&& 0x7F))
      0x09 (decToBcd hour &&& 0x7F)) 0x0A (decToBcd day &&& 0x7F)).regs 0x09 = decToBcd hour := by
    simp [writeRegister_regs, Function.update, decToBcd_lt, decToBcd_and_7F hour (by omega)]
  have eA : (writeRegister (writeRegister (writeRegister w1 0x08 (decToBcd min &&& 0x7F))
      0x09 (decToBcd hour &&& 0x7F)) 0x0A (decToBcd day &&& 0x7F)).regs 0x0A = decToBcd day := by
    simp [writeRegister_regs, Function.update, decToBcd_lt, decToBcd_and_7F day (by omega)]
  have eD : (writeRegister (writeRegister (writeRegister w1 0x08 (decToBcd min &&& 0x7F))
      0x09 (decToBcd hour &&& 0x7F)) 0x0A (decToBcd day &&& 0x7F)).regs 0x0D
        = (w.regs 0x0D % 256 ||| 2 ^ 6) % 256 := by
    simp [writeRegister_regs, Function.update, hr]
  refine ⟨_, by simpa using hs, ?_, ?_, eA, ?_, e8, e9⟩
  · rw [eD, testBit_or_two_pow _ 6 6 (by decide)]
    simp
  · intro j hj hj6
    rw [eD, testBit_or_two_pow _ 6 j hj, testBit_mod_256 _ j hj]
    simp [Ne.symm hj6]
  · rw [eA]; exact decToBcd_testBit_7 day (by omega)

/-- Witness for C7: `setAlarm(15, 9, 20, ALARM_DAY_OF_MONTH)` gives extension bit 6 = 1
and register 0x0A = 0x20. -/
theorem setAlarm_dayOfMonth_witness :
    (∃ w', setAlarm ⟨fun _ => 0, 0, 0, [], [], []⟩ 15 9 20 AlarmMode.ALARM_DAY_OF_MONTH
        = some w' ∧
      (w'.regs 0x0D).testBit 6 = true ∧
      (∀ j, j < 8 → j ≠ 6 → (w'.regs 0x0D).testBit j = (0 : Nat).testBit j) ∧
      w'.regs 0x0A = decToBcd 20 ∧ (w'.regs 0x0A).testBit 7 = false ∧
      w'.regs 0x08 = decToBcd 15 ∧ w'.regs 0x09 = decToBcd 9) ∧
    decToBcd 20 = 0x20 :=
  ⟨setAlarm_dayOfMonth ⟨fun _ => 0, 0, 0, [], [], []⟩ 15 9 20
      (by decide) (by decide) (by decide) (by decide),
    by decide⟩

/-- C8: for every initial register file, `disableUpdateInterrupt` succeeds, clears
bit 5 of control register 0x0F, keeps the other seven bits of that register and
every other register, in particular extension register 0x0D; and for every rate,
after `enableUpdateInterrupt rate` followed by `disableUpdateInterrupt`, extension
bit 5 is 1 iff the rate is `UPDATE_MINUTELY` and control bit 5 is 0. -/
theorem disableUpdateInterrupt_only_control (w : TwoWire) :
    (∃ w', disableUpdateInterrupt w = some w' ∧
      (w'.regs 0x0F).testBit 5 = false ∧
      (∀ j, j < 8 → j ≠ 5 → (w'.regs 0x0F).testBit j = (w.regs 0x0F).testBit j) ∧
      (∀ b, b ≠ 0x0F → w'.regs b = w.regs b) ∧
      w'.regs 0x0D = w.regs 0x0D) ∧
    (∀ rate : UpdateRate, ∃ w1 w2, enableUpdateInterrupt w rate = some w1 ∧
      disableUpdateInterrupt w1 = some w2 ∧
      (w2.regs 0x0D).testBit 5 = decide (rate = UpdateRate.UPDATE_MINUTELY) ∧
      (w2.regs 0x0D).testBit 5 = decide (rate.val = 1) ∧
      w2.regs 0x0D = w1.regs 0x0D ∧
      (w2.regs 0x0F).testBit 5 = false) := by
  constructor
  · obtain ⟨w', hw, hb, ho, hf⟩ := updateRegisterBit_bits w 0x0F 5 false (by decide) (by decide)
    exact ⟨w', hw, hb, ho, hf, hf 0x0D (by decide)⟩
  · intro rate
    obtain ⟨w1, h1, hb1, _, _, _, _⟩ := enableUpdateInterrupt_bits w rate
    obtain ⟨w2, h2, hb2, _, hf2⟩ := updateRegisterBit_bits w1 0x0F 5 false (by decide) (by decide)
    refine ⟨w1, w2, h1, h2, ?_, ?_, hf2 0x0D (by decide), hb2⟩
    · rw [hf2 0x0D (by decide), hb1]
      cases rate <;> rfl
    · rw [hf2 0x0D (by decide), hb1]
      cases rate <;> rfl

/-- C9: for every initial register file and every rate, `enableUpdateInterrupt rate`
succeeds and leaves bit 5 of extension register 0x0D equal to the rate code (0 for
secondly, 1 for minutely), bit 5 of control register 0x0F equal to 1, and every
other bit of those two registers and every other register unchanged. -/
theorem enableUpdateInterrupt_effect (w : TwoWire) (rate : UpdateRate) :
    ∃ w', enableUpdateInterrupt w rate = some w' ∧
      (w'.regs 0x0D).testBit 5 = decide (rate.val = 1) ∧
      (w'.regs 0x0F).testBit 5 = true ∧
      (∀ j, j < 8 → j ≠ 5 → (w'.regs 0x0D).testBit j = (w.regs 0x0D).testBit j) ∧
      (∀ j, j < 8 → j ≠ 5 → (w'.regs 0x0F).testBit j = (w.regs 0x0F).testBit j) ∧
      (∀ b, b ≠ 0x0D → b ≠ 0x0F → w'.regs b = w.regs b) := by
  obtain ⟨w', hw, hb, hrest⟩ := enableUpdateInterrupt_bits w rate
  refine ⟨w', hw, ?_, hrest⟩
  rw [hb]
  cases rate <;> rfl

/-- C10: for every initial extension-register byte `e` and every frequency code `f`
(0b00, 0b01, 0b10), `setOutputFrequency f` leaves extension register 0x0D equal to
`(e AND 0xCF) OR (f << 4)`: bits 5..4 read back as `f`, bits 0..3, 6 and 7 are
unchanged, and no other register changes. -/
theorem setOutputFrequency_effect (w : TwoWire) (e : Nat) (freq : FOUT_Frequency)
    (he : w.regs 0x0D = e) (hlt : e < 256) :
    (setOutputFrequency w freq).regs 0x0D = (e &&& 0xCF) ||| (freq.val <<< 4) ∧
    (((setOutputFrequency w freq).regs 0x0D) >>> 4) &&& 0b11 = freq.val ∧
    (∀ j, j < 8 → j ≠ 4 → j ≠ 5 →
      ((setOutputFrequency w freq).regs 0x0D).testBit j = e.testBit j) ∧
    (∀ b, b ≠ 0x0D → (setOutputFrequency w freq).regs b = w.regs b) := by
  have hv : (setOutputFrequency w freq).regs 0x0D = (e &&& 0xCF) ||| (freq.val <<< 4) := by
    rw [setOutputFrequency_regs, he, Nat.mod_eq_of_lt hlt, andNot_0x30 e hlt]
    have h : ∀ n, n < 256 → ∀ c, c < 3 → ((n &&& 0xCF) ||| (c <<< 4)) % 256
        = (n &&& 0xCF) ||| (c <<< 4) := by
      set_option maxRecDepth 100000 in decide
    have hc : freq.val < 3 := by cases freq <;> decide
    simp [h e hlt freq.val hc]
  refine ⟨hv, ?_, ?_, ?_⟩
  · rw [hv]
    have h : ∀ n, n < 256 → ∀ c, c < 3 → (((n &&& 0xCF) ||| (c <<< 4)) >>> 4) &&& 0b11 = c := by
      set_option maxRecDepth 100000 in decide
    exact h e hlt freq.val (by cases freq <;> decide)
  · intro j hj h4 h5
    rw [hv]
    have h : ∀ c, c < 3 → ∀ i, i < 8 → i ≠ 4 → i ≠ 5 →
        (0xCF : Nat).testBit i = true ∧ (c <<< 4).testBit i = false := by decide
    obtain ⟨ha, hb⟩ := h freq.val (by cases freq <;> decide) j hj h4 h5
    rw [Nat.testBit_or, Nat.testBit_and, ha, hb]
    simp
  · intro b hb
    rw [setOutputFrequency_regs]
    simp [Function.update, hb]

/-- Witness for C10: selecting 1 Hz on an extension register holding 0xFF. -/
theorem setOutputFrequency_effect_witness :
    (setOutputFrequency ⟨fun _ => 0xFF, 0, 0, [], [], []⟩ FOUT_Frequency.FOUT_1_HZ).regs 0x0D
      = (0xFF &&& 0xCF) ||| (FOUT_Frequency.FOUT_1_HZ.val <<< 4) ∧
    (((setOutputFrequency ⟨fun _ => 0xFF, 0, 0, [], [], []⟩
      FOUT_Frequency.FOUT_1_HZ).regs 0x0D) >>> 4) &&& 0b11 = FOUT_Frequency.FOUT_1_HZ.val ∧
    (∀ j, j < 8 → j ≠ 4 → j ≠ 5 →
      ((setOutputFrequency ⟨fun _ => 0xFF, 0, 0, [], [], []⟩
        FOUT_Frequency.FOUT_1_HZ).regs 0x0D).testBit j = (0xFF : Nat).testBit j) ∧
    (∀ b, b ≠ 0x0D →
      (setOutputFrequency ⟨fun _ => 0xFF, 0, 0, [], [], []⟩ FOUT_Frequency.FOUT_1_HZ).regs b
        = (fun _ => 0xFF) b) :=
  setOutputFrequency_effect ⟨fun _ => 0xFF, 0, 0, [], [], []⟩ 0xFF FOUT_Frequency.FOUT_1_HZ
    rfl (by decide)

/-- C11: for every d in 1..7 the weekday byte written by `setTime` is `1 << (d-1)`, and
decoding that byte with the lowest-set-bit scan of `getTime` over bit positions 0..6
yields dayOfWeek = d, whatever the output variable held before; so `getTime` on a
register file whose week register holds that byte returns dayOfWeek = d. -/
theorem weekday_bitmask_roundtrip (d d0 : Nat) (h1 : 1 ≤ d) (h7 : d ≤ 7) :
    shl1 ((d : Int) - 1) = some (1 <<< (d - 1)) ∧
    weekScan (1 <<< (d - 1)) 7 0 d0 = d ∧
    (∀ w : TwoWire, w.regs 0x03 = 1 <<< (d - 1) → (getTime w d0).1.dayOfWeek = d) := by
  have hs : weekScan (1 <<< (d - 1)) 7 0 d0 = d := by
    interval_cases d <;> simp [weekScan]
  have hm : (1 <<< (d - 1)) % 256 = 1 <<< (d - 1) := by
    interval_cases d <;> rfl
  refine ⟨?_, hs, ?_⟩
  · rw [shl1_pred d h1 (by omega), Nat.shiftLeft_eq, Nat.one_mul]
  · intro w hw
    rw [getTime_fst]
    show weekScan (w.regs 3 % 256) 7 0 d0 = d
    rw [hw, hm, hs]

/-- Witness for C11: Saturday (d = 7) is encoded as 0x40 and decoded back to 7. -/
theorem weekday_bitmask_roundtrip_witness :
    shl1 ((7 : Nat) - 1 : Int) = some (1 <<< (7 - 1)) ∧
    weekScan (1 <<< (7 - 1)) 7 0 0 = 7 ∧
    (∀ w : TwoWire, w.regs 0x03 = 1 <<< (7 - 1) → (getTime w 0).1.dayOfWeek = 7) :=
  weekday_bitmask_roundtrip 7 0 (by decide) (by decide)

/-- C12: for every register file, `isTimeValid` returns true if and only if bit 1 (VLF)
of flag register 0x0E is 0; the result depends on nothing but that bit (two ports
that agree on it give the same answer), and the call leaves the register file
unchanged. -/
theorem isTimeValid_iff_vlf_clear (w : TwoWire) :
    ((isTimeValid w).1 = true ↔ (w.regs 0x0E).testBit 1 = false) ∧
    (∀ w2 : TwoWire, (w2.regs 0x0E).testBit 1 = (w.regs 0x0E).testBit 1 →
      (isTimeValid w2).1 = (isTimeValid w).1) ∧
    (isTimeValid w).2.regs = w.regs := by
  refine ⟨?_, ?_, isTimeValid_regs w⟩
  · rw [isTimeValid_fst]
    cases (w.regs 14).testBit 1 <;> simp
  · intro w2 h
    rw [isTimeValid_fst, isTimeValid_fst, h]

/-- C13: for every register file, `alarmFired` returns true iff bit 3 (AF) of flag
register 0x0E is 1 (and reads without changing the register file); after
`clearAlarmFlag` bit 3 of the flag register is 0, its other seven bits and all
other registers are unchanged, and `alarmFired` returns false. -/
theorem alarmFired_clearAlarmFlag (w : TwoWire) :
    ((alarmFired w).1 = true ↔ (w.regs 0x0E).testBit 3 = true) ∧
    (alarmFired w).2.regs = w.regs ∧
    ((clearAlarmFlag w).regs 0x0E).testBit 3 = false ∧
    (∀ j, j < 8 → j ≠ 3 →
      ((clearAlarmFlag w).regs 0x0E).testBit j = (w.regs 0x0E).testBit j) ∧
    (∀ b, b ≠ 0x0E → (clearAlarmFlag w).regs b = w.regs b) ∧
    (alarmFired (clearAlarmFlag w)).1 = false := by
  obtain ⟨hb, ho, hr⟩ := clearFlag_bits w 3 (by decide) clearAlarmFlag (clearAlarmFlag_eq w)
  refine ⟨?_, ?_, hb, ho, hr, ?_⟩
  · rw [alarmFired_fst]
  · unfold alarmFired
    exact readRegister_regs w FRTC8900_REG_FLAG
  · rw [alarmFired_fst]
    exact hb

/-- C14: `setAlarm` is last-writer-wins. For every initial port and every two argument
tuples whose day is in 1..7 when the mode is day-of-week (so in particular every two
valid tuples), both calls succeed and the register file after `setAlarm a1` followed
by `setAlarm a2` equals the register file after `setAlarm a2` alone; the WADA bit
(extension register bit 6) is 1 exactly when the last mode is day-of-month. -/
theorem setAlarm_last_writer_wins (w : TwoWire)
    (min1 hour1 day1 : Nat) (mode1 : AlarmMode) (min2 hour2 day2 : Nat) (mode2 : AlarmMode)
    (hd1 : mode1 = AlarmMode.ALARM_DAY_OF_WEEK → 1 ≤ day1 ∧ day1 ≤ 7)
    (hd2 : mode2 = AlarmMode.ALARM_DAY_OF_WEEK → 1 ≤ day2 ∧ day2 ≤ 7) :
    ∃ w1 w12 w2, setAlarm w min1 hour1 day1 mode1 = some w1 ∧
      setAlarm w1 min2 hour2 day2 mode2 = some w12 ∧
      setAlarm w min2 hour2 day2 mode2 = some w2 ∧
      w12.regs = w2.regs ∧
      (w12.regs 0x0D).testBit 6 = (mode2 == AlarmMode.ALARM_DAY_OF_MONTH) := by
  obtain ⟨w1, h1, hr1⟩ := setAlarm_regs w min1 hour1 day1 mode1
    (fun h => ⟨(hd1 h).1, by have := (hd1 h).2; omega⟩)
  obtain ⟨w12, h12, hr12⟩ := setAlarm_regs w1 min2 hour2 day2 mode2
    (fun h => ⟨(hd2 h).1, by have := (hd2 h).2; omega⟩)
  obtain ⟨w2, h2, hr2⟩ := setAlarm_regs w min2 hour2 day2 mode2
    (fun h => ⟨(hd2 h).1, by have := (hd2 h).2; omega⟩)
  have hD : w1.regs 0x0D =
      (if (mode1 == AlarmMode.ALARM_DAY_OF_MONTH) = true then (w.regs 0x0D % 256 ||| 2 ^ 6) % 256
       else andNot (w.regs 0x0D % 256) (2 ^ 6)) := by
    rw [hr1]
    simp [Function.update]
  have hfun : w12.regs = w2.regs := by
    funext b
    rw [hr12, hr2]
    by_cases hA : b = 0x0A
    · subst hA
      simp [Function.update]
    · by_cases h9 : b = 0x09
      · subst h9
        simp [Function.update]
      · by_cases h8 : b = 0x08
        · subst h8
          simp [Function.update]
        · by_cases hDb : b = 0x0D
          · subst hDb
            simp only [Function.update, hD]
            have key := setBit_setBit (w.regs 0x0D) 6 (mode1 == AlarmMode.ALARM_DAY_OF_MONTH)
              (mode2 == AlarmMode.ALARM_DAY_OF_MONTH)
            simpa using key
          · rw [Function.update_noteq hA, Function.update_noteq h9, Function.update_noteq h8,
              Function.update_noteq hDb, Function.update_noteq hA, Function.update_noteq h9,
              Function.update_noteq h8, Function.update_noteq hDb, hr1,
              Function.update_noteq hA, Function.update_noteq h9, Function.update_noteq h8,
              Function.update_noteq hDb]
  refine ⟨w1, w12, w2, h1, h12, h2, hfun, ?_⟩
  rw [hfun, hr2]
  have hv : Function.update (Function.update (Function.update (Function.update w.regs 0x0D
        (if (mode2 == AlarmMode.ALARM_DAY_OF_MONTH) = true then (w.regs 0x0D % 256 ||| 2 ^ 6) % 256
         else andNot (w.regs 0x0D % 256) (2 ^ 6)))
        0x08 (decToBcd min2 &&& 0x7F)) 0x09 (decToBcd hour2 &&& 0x7F)) 0x0A
          (if mode2 = AlarmMode.ALARM_DAY_OF_WEEK then 2 ^ (day2 - 1) &&& 0x7F
           else decToBcd day2 &&& 0x7F) 0x0D =
      (if (mode2 == AlarmMode.ALARM_DAY_OF_MONTH) = true then (w.regs 0x0D % 256 ||| 2 ^ 6) % 256
         else andNot (w.regs 0x0D % 256) (2 ^ 6)) := by
    simp [Function.update]
  rw [hv]
  cases mode2
  · rw [if_neg (by decide), testBit_andNot_two_pow _ 6 6 (by decide)]
    simp
  · rw [if_pos (by decide), testBit_or_two_pow _ 6 6 (by decide)]
    simp

/-- Witness for C14: a day-of-week alarm overwritten by a day-of-month alarm. -/
theorem setAlarm_last_writer_wins_witness :
    ∃ w1 w12 w2,
      setAlarm ⟨fun _ => 0xFF, 0, 0, [], [], []⟩ 30 14 3 AlarmMode.ALARM_DAY_OF_WEEK = some w1 ∧
      setAlarm w1 15 9 20 AlarmMode.ALARM_DAY_OF_MONTH = some w12 ∧
      setAlarm ⟨fun _ => 0xFF, 0, 0, [], [], []⟩ 15 9 20 AlarmMode.ALARM_DAY_OF_MONTH = some w2 ∧
      w12.regs = w2.regs ∧
      (w12.regs 0x0D).testBit 6 = (AlarmMode.ALARM_DAY_OF_MONTH == AlarmMode.ALARM_DAY_OF_MONTH) :=
  setAlarm_last_writer_wins ⟨fun _ => 0xFF, 0, 0, [], [], []⟩
    30 14 3 AlarmMode.ALARM_DAY_OF_WEEK 15 9 20 AlarmMode.ALARM_DAY_OF_MONTH
    (fun _ => ⟨by decide, by decide⟩) (fun h => by cases h)

/-- C15: `enableOutput` and `disableOutput` are no-ops: each returns the port it was
given, so every register is byte-identical, the register pointer and buffers are
untouched, and no bus operation is added to the trace. -/
theorem enableOutput_disableOutput_noop (w : TwoWire) :
    enableOutput w = w ∧ disableOutput w = w ∧
    (∀ a, (enableOutput w).regs a = w.regs a) ∧ (enableOutput w).trace = w.trace ∧
    (∀ a, (disableOutput w).regs a = w.regs a) ∧ (disableOutput w).trace = w.trace :=
  ⟨rfl, rfl, fun _ => rfl, rfl, fun _ => rfl, rfl⟩

/-- C16: for every week-register byte `wk` with at least one of bits 0..6 set (bit 7
and further low bits may be set as well), `getTime` returns dayOfWeek = k + 1 where
`k` is the lowest set bit of `wk` among positions 0..6, hence a value in 1..7; and
for every year-register byte it returns year = 2000 + bcdToDec of that byte, whatever
the byte is. No field is range-validated: the whole record returned is the raw
decode, sec, min, hour, dayOfMonth and month being `bcdToDec` of their register
bytes whatever those bytes are. -/
theorem getTime_lowest_bit_wins (w : TwoWire) (d0 wk : Nat)
    (hwk : w.regs 0x03 = wk) (hlt : wk < 256) (hset : ∃ i, i < 7 ∧ wk.testBit i = true) :
    (∃ k, k < 7 ∧ wk.testBit k = true ∧ (∀ j, j < k → wk.testBit j = false) ∧
      (getTime w d0).1.dayOfWeek = k + 1 ∧
      (getTime w d0).1 =
        { sec := bcdToDec (w.regs 0x00 % 256), min := bcdToDec (w.regs 0x01 % 256),
          hour := bcdToDec (w.regs 0x02 % 256), dayOfWeek := k + 1,
          dayOfMonth := bcdToDec (w.regs 0x04 % 256), month := bcdToDec (w.regs 0x05 % 256),
          year := 2000 + bcdToDec (w.regs 0x06 % 256) }) ∧
    1 ≤ (getTime w d0).1.dayOfWeek ∧ (getTime w d0).1.dayOfWeek ≤ 7 ∧
    (getTime w d0).1.year = 2000 + bcdToDec (w.regs 0x06 % 256) ∧
    (getTime w d0).1.sec = bcdToDec (w.regs 0x00 % 256) ∧
    (getTime w d0).1.min = bcdToDec (w.regs 0x01 % 256) ∧
    (getTime w d0).1.hour = bcdToDec (w.regs 0x02 % 256) ∧
    (getTime w d0).1.dayOfMonth = bcdToDec (w.regs 0x04 % 256) ∧
    (getTime w d0).1.month = bcdToDec (w.regs 0x05 % 256) := by
  have hd : (getTime w d0).1.dayOfWeek = weekScan wk 7 0 d0 := by
    rw [getTime_fst]
    show weekScan (w.regs 3 % 256) 7 0 d0 = weekScan wk 7 0 d0
    rw [hwk, Nat.mod_eq_of_lt hlt]
  have hyy : (2000 + bcdToDec (w.regs 6 % 256)) % 65536 = 2000 + bcdToDec (w.regs 6 % 256) := by
    have hb : bcdToDec (w.regs 6 % 256) < 256 := by
      unfold bcdToDec
      omega
    omega
  have hy : (getTime w d0).1.year = 2000 + bcdToDec (w.regs 0x06 % 256) := by
    rw [getTime_fst]
    exact hyy
  have hk : Nat.find hset < 7 ∧ wk.testBit (Nat.find hset) = true := Nat.find_spec hset
  have hmin : ∀ j, j < Nat.find hset → wk.testBit j = false := by
    intro j hj
    have h := Nat.find_min hset hj
    have hj7 : j < 7 := by omega
    cases hb : wk.testBit j
    · rfl
    · exact absurd ⟨hj7, hb⟩ h
  have hscan : weekScan wk 7 0 d0 = Nat.find hset + 1 := by
    rw [weekScan_lowest wk d0 7 0 (Nat.find hset) (Nat.zero_le _) (by omega) hk.2
      (fun j _ hj => hmin j hj)]
    omega
  have hrec : (getTime w d0).1 =
      { sec := bcdToDec (w.regs 0x00 % 256), min := bcdToDec (w.regs 0x01 % 256),
        hour := bcdToDec (w.regs 0x02 % 256), dayOfWeek := Nat.find hset + 1,
        dayOfMonth := bcdToDec (w.regs 0x04 % 256), month := bcdToDec (w.regs 0x05 % 256),
        year := 2000 + bcdToDec (w.regs 0x06 % 256) } := by
    have hs3 : weekScan (w.regs 3 % 256) 7 0 d0 = Nat.find hset + 1 := by
      rw [hwk, Nat.mod_eq_of_lt hlt]
      exact hscan
    rw [getTime_fst, hs3, hyy]
  refine ⟨⟨Nat.find hset, hk.1, hk.2, hmin, by rw [hd, hscan], hrec⟩, ?_, ?_, hy, ?_, ?_, ?_,
    ?_, ?_⟩
  · rw [hd, hscan]
    omega
  · rw [hd, hscan]
    omega
  · rw [hrec]
  · rw [hrec]
  · rw [hrec]
  · rw [hrec]
  · rw [hrec]

/-- Witness for C16: with every register at 0xA4 the corrupted week mask (bits 2, 5
and 7) decodes to dayOfWeek 3, and the invalid BCD byte 0xA4 is passed through
unvalidated as 104 in sec, min, hour, dayOfMonth and month, and as year 2104. -/
theorem getTime_lowest_bit_wins_witness :
    ((∃ k, k < 7 ∧ (0xA4 : Nat).testBit k = true ∧
        (∀ j, j < k → (0xA4 : Nat).testBit j = false) ∧
        (getTime ⟨fun _ => 0xA4, 0, 0, [], [], []⟩ 0).1.dayOfWeek = k + 1 ∧
        (getTime ⟨fun _ => 0xA4, 0, 0, [], [], []⟩ 0).1 =
          { sec := bcdToDec (0xA4 % 256), min := bcdToDec (0xA4 % 256),
            hour := bcdToDec (0xA4 % 256), dayOfWeek := k + 1,
            dayOfMonth := bcdToDec (0xA4 % 256), month := bcdToDec (0xA4 % 256),
            year := 2000 + bcdToDec (0xA4 % 256) }) ∧
      1 ≤ (getTime ⟨fun _ => 0xA4, 0, 0, [], [], []⟩ 0).1.dayOfWeek ∧
      (getTime ⟨fun _ => 0xA4, 0, 0, [], [], []⟩ 0).1.dayOfWeek ≤ 7 ∧
      (getTime ⟨fun _ => 0xA4, 0, 0, [], [], []⟩ 0).1.year = 2000 + bcdToDec (0xA4 % 256) ∧
      (getTime ⟨fun _ => 0xA4, 0, 0, [], [], []⟩ 0).1.sec = bcdToDec (0xA4 % 256) ∧
      (getTime ⟨fun _ => 0xA4, 0, 0, [], [], []⟩ 0).1.min = bcdToDec (0xA4 % 256) ∧
      (getTime ⟨fun _ => 0xA4, 0, 0, [], [], []⟩ 0).1.hour = bcdToDec (0xA4 % 256) ∧
      (getTime ⟨fun _ => 0xA4, 0, 0, [], [], []⟩ 0).1.dayOfMonth = bcdToDec (0xA4 % 256) ∧
      (getTime ⟨fun _ => 0xA4, 0, 0, [], [], []⟩ 0).1.month = bcdToDec (0xA4 % 256)) ∧
    bcdToDec (0xA4 % 256) = 104 :=
  ⟨getTime_lowest_bit_wins ⟨fun _ => 0xA4, 0, 0, [], [], []⟩ 0 0xA4 rfl (by decide)
      ⟨2, by decide, by decide⟩,
    by decide⟩

/-- C17: for every initial port, `clearVoltageLowFlag`, `clearAlarmFlag` and
`clearUpdateFlag` produce exactly the port (hence the register file) that
`updateRegisterBit 0x0E k false` produces for k = 1, 3 and 5 respectively; and
`updateFired` returns true iff flag bit 5 is 1, as `alarmFired` does for bit 3. -/
theorem flag_clears_refine_updateRegisterBit (w : TwoWire) :
    updateRegisterBit w 0x0E 1 false = some (clearVoltageLowFlag w) ∧
    updateRegisterBit w 0x0E 3 false = some (clearAlarmFlag w) ∧
    updateRegisterBit w 0x0E 5 false = some (clearUpdateFlag w) ∧
    ((updateFired w).1 = true ↔ (w.regs 0x0E).testBit 5 = true) ∧
    ((alarmFired w).1 = true ↔ (w.regs 0x0E).testBit 3 = true) := by
  refine ⟨clearVoltageLowFlag_eq w, clearAlarmFlag_eq w, clearUpdateFlag_eq w, ?_, ?_⟩
  · rw [updateFired_fst]
  · rw [alarmFired_fst]

/-- C18: the frequency field written by `setOutputFrequency` overlaps the update-rate
bit written by `enableUpdateInterrupt`: for every initial port, rate and frequency
code `f`, after `enableUpdateInterrupt rate` followed by `setOutputFrequency f`, bit 5
of extension register 0x0D equals bit 1 of `f`, whatever the rate; so secondly then
1 Hz leaves the bit at 1, and minutely then 1024 Hz leaves it at 0. -/
theorem setOutputFrequency_overwrites_rate (w : TwoWire) :
    (∀ (rate : UpdateRate) (f : FOUT_Frequency), ∃ w1, enableUpdateInterrupt w rate = some w1 ∧
      ((setOutputFrequency w1 f).regs 0x0D).testBit 5 = f.val.testBit 1) ∧
    (∃ w1, enableUpdateInterrupt w UpdateRate.UPDATE_SECONDLY = some w1 ∧
      (w1.regs 0x0D).testBit 5 = false ∧
      ((setOutputFrequency w1 FOUT_Frequency.FOUT_1_HZ).regs 0x0D).testBit 5 = true) ∧
    (∃ w1, enableUpdateInterrupt w UpdateRate.UPDATE_MINUTELY = some w1 ∧
      (w1.regs 0x0D).testBit 5 = true ∧
      ((setOutputFrequency w1 FOUT_Frequency.FOUT_1024_HZ).regs 0x0D).testBit 5 = false) := by
  refine ⟨?_, ?_, ?_⟩
  · intro rate f
    obtain ⟨w1, h1, _⟩ := enableUpdateInterrupt_bits w rate
    exact ⟨w1, h1, setOutputFrequency_bit5 w1 f⟩
  · obtain ⟨w1, h1, hb, _⟩ := enableUpdateInterrupt_bits w UpdateRate.UPDATE_SECONDLY
    refine ⟨w1, h1, ?_, ?_⟩
    · rw [hb]
      rfl
    · rw [setOutputFrequency_bit5]
      decide
  · obtain ⟨w1, h1, hb, _⟩ := enableUpdateInterrupt_bits w UpdateRate.UPDATE_MINUTELY
    refine ⟨w1, h1, ?_, ?_⟩
    · rw [hb]
      rfl
    · rw [setOutputFrequency_bit5]
      decide

/-- C19: when the week register byte has none of bits 0..6 set (for a byte: 0x00 or
0x80), `getTime` assigns nothing to dayOfWeek, which keeps the value `d0` it held
before the call, while the other six outputs are decoded from the registers. -/
theorem getTime_keeps_dayOfWeek (w : TwoWire) (d0 : Nat)
    (h : ∀ i, i < 7 → (w.regs 0x03).testBit i = false) :
    (getTime w d0).1 =
      { sec := bcdToDec (w.regs 0x00 % 256), min := bcdToDec (w.regs 0x01 % 256),
        hour := bcdToDec (w.regs 0x02 % 256), dayOfWeek := d0,
        dayOfMonth := bcdToDec (w.regs 0x04 % 256), month := bcdToDec (w.regs 0x05 % 256),
        year := 2000 + bcdToDec (w.regs 0x06 % 256) } ∧
    (∀ b, b < 256 → ((∀ i, i < 7 → b.testBit i = false) ↔ (b = 0x00 ∨ b = 0x80))) := by
  constructor
  · have hscan : weekScan (w.regs 3 % 256) 7 0 d0 = d0 := by
      apply weekScan_none
      intro j _ hj
      rw [testBit_mod_256 _ j (by omega)]
      exact h j (by omega)
    have hy : (2000 + bcdToDec (w.regs 6 % 256)) % 65536 = 2000 + bcdToDec (w.regs 6 % 256) := by
      have hb : bcdToDec (w.regs 6 % 256) < 256 := by
        unfold bcdToDec
        omega
      omega
    rw [getTime_fst, hscan, hy]
  · set_option maxRecDepth 100000 in decide

/-- Witness for C19: a week register holding 0x80 leaves dayOfWeek at its prior value 5. -/
theorem getTime_keeps_dayOfWeek_witness :
    (getTime ⟨fun _ => 0x80, 0, 0, [], [], []⟩ 5).1 =
      { sec := bcdToDec (0x80 % 256), min := bcdToDec (0x80 % 256),
        hour := bcdToDec (0x80 % 256), dayOfWeek := 5,
        dayOfMonth := bcdToDec (0x80 % 256), month := bcdToDec (0x80 % 256),
        year := 2000 + bcdToDec (0x80 % 256) } ∧
    (∀ b, b < 256 → ((∀ i, i < 7 → b.testBit i = false) ↔ (b = 0x00 ∨ b = 0x80))) :=
  getTime_keeps_dayOfWeek ⟨fun _ => 0x80, 0, 0, [], [], []⟩ 5 (by decide)

/-- C20: reverse round trip. For every port whose registers 0x00, 0x01, 0x02, 0x04,
0x05 and 0x06 hold valid BCD (both nibbles at most 9) and whose register 0x03 is the
one-hot byte `1 << i` with i in 0..6, `getTime` followed by `setTime` with exactly the
seven values returned succeeds and leaves registers 0x00..0x06 byte-identical to
their initial contents; `decToBcd (bcdToDec b) = b` for every valid-BCD byte `b`. -/
theorem getTime_setTime_roundtrip (w : TwoWire) (d0 i : Nat)
    (hbcd : ∀ a, a ∈ [0x00, 0x01, 0x02, 0x04, 0x05, 0x06] →
      w.regs a / 16 ≤ 9 ∧ w.regs a % 16 ≤ 9)
    (hi : i < 7) (hweek : w.regs 0x03 = 1 <<< i) :
    (∃ w', setTime (getTime w d0).2 (getTime w d0).1.sec (getTime w d0).1.min
        (getTime w d0).1.hour (getTime w d0).1.dayOfWeek (getTime w d0).1.dayOfMonth
        (getTime w d0).1.month (getTime w d0).1.year = some w' ∧
      (∀ a, a ≤ 6 → w'.regs a = w.regs a)) ∧
    (∀ b, b / 16 ≤ 9 → b % 16 ≤ 9 → decToBcd (bcdToDec b) = b) := by
  refine ⟨?_, decToBcd_bcdToDec⟩
  have ht := getTime_fst w d0
  have hr := getTime_regs w d0
  have hback : ∀ a, a ∈ [0x00, 0x01, 0x02, 0x04, 0x05, 0x06] →
      decToBcd (bcdToDec (w.regs a % 256)) = w.regs a := by
    intro a ha
    obtain ⟨h1, h2⟩ := hbcd a ha
    rw [Nat.mod_eq_of_lt (by omega)]
    exact decToBcd_bcdToDec _ h1 h2
  have hS : decToBcd (getTime w d0).1.sec = w.regs 0 := by
    rw [ht]
    exact hback 0 (by decide)
  have hM : decToBcd (getTime w d0).1.min = w.regs 1 := by
    rw [ht]
    exact hback 1 (by decide)
  have hH : decToBcd (getTime w d0).1.hour = w.regs 2 := by
    rw [ht]
    exact hback 2 (by decide)
  have hD : decToBcd (getTime w d0).1.dayOfMonth = w.regs 4 := by
    rw [ht]
    exact hback 4 (by decide)
  have hMo : decToBcd (getTime w d0).1.month = w.regs 5 := by
    rw [ht]
    exact hback 5 (by decide)
  have hY : decToBcd ((getTime w d0).1.year % 100) = w.regs 6 := by
    rw [ht]
    show decToBcd ((2000 + bcdToDec (w.regs 6 % 256)) % 65536 % 100) = w.regs 6
    obtain ⟨h1, h2⟩ := hbcd 6 (by decide)
    have hm : w.regs 6 % 256 = w.regs 6 := Nat.mod_eq_of_lt (by omega)
    have hle := bcdToDec_le_99 (w.regs 6) h1 h2
    rw [hm]
    have he : (2000 + bcdToDec (w.regs 6)) % 65536 % 100 = bcdToDec (w.regs 6) := by omega
    rw [he]
    exact decToBcd_bcdToDec _ h1 h2
  have hdow : (getTime w d0).1.dayOfWeek = i + 1 := by
    rw [ht]
    show weekScan (w.regs 3 % 256) 7 0 d0 = i + 1
    rw [hweek]
    interval_cases i <;> simp [weekScan]
  have hW : 2 ^ ((getTime w d0).1.dayOfWeek - 1) = w.regs 3 := by
    rw [hdow, hweek, Nat.shiftLeft_eq, Nat.one_mul, Nat.add_sub_cancel]
  refine ⟨_, setTime_eq (getTime w d0).2 _ _ _ _ _ _ _ (by omega) (by omega), ?_⟩
  intro a ha
  rw [clearVoltageLowFlag_regs]
  simp only [hS, hM, hH, hD, hMo, hY, hW, hr]
  interval_cases a <;> simp [Function.update]

/-- Witness for C20: registers holding 0x59 with the week register at 0x04 (Tuesday bit). -/
theorem getTime_setTime_roundtrip_witness :
    (∃ w', setTime (getTime ⟨fun a => if a = 3 then 0x04 else 0x59, 0, 0, [], [], []⟩ 0).2
        (getTime ⟨fun a => if a = 3 then 0x04 else 0x59, 0, 0, [], [], []⟩ 0).1.sec
        (getTime ⟨fun a => if a = 3 then 0x04 else 0x59, 0, 0, [], [], []⟩ 0).1.min
        (getTime ⟨fun a => if a = 3 then 0x04 else 0x59, 0, 0, [], [], []⟩ 0).1.hour
        (getTime ⟨fun a => if a = 3 then 0x04 else 0x59, 0, 0, [], [], []⟩ 0).1.dayOfWeek
        (getTime ⟨fun a => if a = 3 then 0x04 else 0x59, 0, 0, [], [], []⟩ 0).1.dayOfMonth
        (getTime ⟨fun a => if a = 3 then 0x04 else 0x59, 0, 0, [], [], []⟩ 0).1.month
        (getTime ⟨fun a => if a = 3 then 0x04 else 0x59, 0, 0, [], [], []⟩ 0).1.year = some w' ∧
      (∀ a, a ≤ 6 → w'.regs a = (fun a => if a = 3 then 0x04 else 0x59) a)) ∧
    (∀ b, b / 16 ≤ 9 → b % 16 ≤ 9 → decToBcd (bcdToDec b) = b) :=
  getTime_setTime_roundtrip ⟨fun a => if a = 3 then 0x04 else 0x59, 0, 0, [], [], []⟩ 0 2
    (by decide) (by decide) (by decide)

end FRTC8900
